import Mathlib

/-!
# Typo-exception reconciliation: windows/src/TypoExceptions.cpp

A shallow embedding of the list reconciliation code of the OpenDNS updater
client and the properties of it that the specification states.

Modelling conventions
* A singly linked `StringTimeNode*` chain is a `List StringTimeNode`; the head
  of the chain is the head of the list and `NULL` is `[]`.
* `time_t` is `Int`.  Timestamps are clock readings (seconds since 1970), far
  from the range where `t + 1209600` could overflow.
* `int` counters are `Int`: a chain of heap nodes in the 32-bit address space
  of this client has fewer than `2^31` nodes, so `++count` never wraps.
* `calloc`, `strdup` and `TStrToStr` are taken to succeed, and the `char*`
  handed to `StringTimeNodeAlloc` is never `NULL` (it is the `s` field of a
  node, or a freshly converted name).
* The outside world is an `Env`: the value of every `time()` call, the reply
  to every `HttpPost`, and what the operating system enumerates.  The mutable
  globals, the number of `time()` calls made and the log of the `HttpPost`
  requests issued form the `World`.
-/

namespace TypoExceptions

/-! ## Data model -/

abbrev time_t := Int

/-- The constant `#define MAX_TYPO_EXCEPTIONS 25`. -/
def MAX_TYPO_EXCEPTIONS : Int := 25

/-- The struct `StringTimeNode`; the `next` pointer is the tail of the list. -/
structure StringTimeNode where
  s : String
  t : time_t
deriving DecidableEq, Repr

/-- The library call `time(&t)`: the `k`-th call reads `clock k`. -/
def time (clock : Nat → time_t) (k : Nat) : time_t × Nat :=
  (clock k, k + 1)

/-- The function `StringTimeNodeAlloc(s, t)`; the C default argument `t = 0`
is passed explicitly. A zero `t` is replaced by a clock reading. -/
def StringTimeNodeAlloc (clock : Nat → time_t) (k : Nat) (s : String) (t : time_t) :
    StringTimeNode × Nat :=
  if t = 0 then ({ s := s, t := (time clock k).1 }, (time clock k).2)
  else ({ s := s, t := t }, k)

/-- The function `StringTimeNodeInsert`: the node becomes the new head. -/
def StringTimeNodeInsert (head : List StringTimeNode) (node : StringTimeNode) :
    List StringTimeNode :=
  node :: head

/-- The function `StringTimeNodeAllocAndInsert(head, s, t)`. -/
def StringTimeNodeAllocAndInsert (clock : Nat → time_t) (k : Nat)
    (head : List StringTimeNode) (s : String) (t : time_t) :
    List StringTimeNode × Nat :=
  (StringTimeNodeInsert head (StringTimeNodeAlloc clock k s t).1,
   (StringTimeNodeAlloc clock k s t).2)

/-! ## Name collection -/

/-- The fields of a `NETRESOURCE` that `AddToListIfServer` reads. -/
structure NETRESOURCE where
  /-- Whether `dwDisplayType` is `RESOURCEDISPLAYTYPE_SERVER`. -/
  isServer : Bool
  lpRemoteName : String
deriving DecidableEq, Repr

/-- The function `AddToListIfServer`: a server whose remote name starts with two
backslashes (character 92) contributes the rest of that name. -/
def AddToListIfServer (clock : Nat → time_t) (k : Nat) (head : List StringTimeNode)
    (nr : NETRESOURCE) : List StringTimeNode × Nat :=
  if nr.isServer then
    match nr.lpRemoteName.data with
    | c1 :: c2 :: name =>
      if c1 = Char.ofNat 92 ∧ c2 = Char.ofNat 92 then
        StringTimeNodeAllocAndInsert clock k head (String.mk name) 0
      else (head, k)
    | _ => (head, k)
  else (head, k)

/-- The function `GetNetworkServersEnum`, over the resources in the order in
which the recursive enumeration visits them. -/
def GetNetworkServersEnum (clock : Nat → time_t) :
    List NETRESOURCE → List StringTimeNode → Nat → List StringTimeNode × Nat
  | [], head, k => (head, k)
  | nr :: rest, head, k =>
    GetNetworkServersEnum clock rest (AddToListIfServer clock k head nr).1
      (AddToListIfServer clock k head nr).2

/-- The function `GetDNSPrefixes`, over the `DnsSuffix` field of the adapters
that `GetAdaptersAddresses` returned (`none` is a `NULL` suffix; no adapters
when the call fails). -/
def GetDNSPrefixes (clock : Nat → time_t) :
    List (Option String) → List StringTimeNode → Nat → List StringTimeNode × Nat
  | [], head, k => (head, k)
  | none :: rest, head, k => GetDNSPrefixes clock rest head k
  | some dnsSuffix :: rest, head, k =>
    if dnsSuffix.data ≠ [] then
      GetDNSPrefixes clock rest (StringTimeNodeAllocAndInsert clock k head dnsSuffix 0).1
        (StringTimeNodeAllocAndInsert clock k head dnsSuffix 0).2
    else GetDNSPrefixes clock rest head k

/-- The function `GetTypoExceptions`. -/
def GetTypoExceptions (clock : Nat → time_t) (adapters : List (Option String))
    (resources : List NETRESOURCE) (k : Nat) : List StringTimeNode × Nat :=
  GetNetworkServersEnum clock resources (GetDNSPrefixes clock adapters [] k).1
    (GetDNSPrefixes clock adapters [] k).2

/-! ## List operations -/

/-- Modelled from the spec: the case folding behind `strieq` of StrUtil.h, which
is not part of the sources at hand; names are compared "case-insensitively",
taken here as equality after mapping the letters A to Z to lower case. -/
def foldCase (s : String) : List Char :=
  s.data.map Char.toLower

/-- Modelled from the spec: `strieq` of StrUtil.h (not part of the sources at
hand), the case-insensitive equality of two names. -/
def strieq (s1 s2 : String) : Bool :=
  decide (foldCase s1 = foldCase s2)

/-- The function `StringTimeNodeExists`. -/
def StringTimeNodeExists : List StringTimeNode → String → Bool
  | [], _ => false
  | curr :: rest, s => if strieq curr.s s then true else StringTimeNodeExists rest s

/-- The loop of `StringTimeNodeListGetAdded`: `curr` is the rest of `current`
still to visit and `added` the list built so far. -/
def StringTimeNodeListGetAddedLoop (clock : Nat → time_t) (all : List StringTimeNode) :
    List StringTimeNode → List StringTimeNode → Nat → List StringTimeNode × Nat
  | [], added, k => (added, k)
  | curr :: rest, added, k =>
    if !StringTimeNodeExists all curr.s then
      StringTimeNodeListGetAddedLoop clock all rest
        (StringTimeNodeAllocAndInsert clock k added curr.s 0).1
        (StringTimeNodeAllocAndInsert clock k added curr.s 0).2
    else StringTimeNodeListGetAddedLoop clock all rest added k

/-- The function `StringTimeNodeListGetAdded(all, current)`. -/
def StringTimeNodeListGetAdded (clock : Nat → time_t) (k : Nat)
    (all current : List StringTimeNode) : List StringTimeNode × Nat :=
  StringTimeNodeListGetAddedLoop clock all current [] k

/-- The constant `TWO_WEEKS_IN_SECONDS` of `StringTimeNodeIsExpired`. -/
def TWO_WEEKS_IN_SECONDS : time_t := 60 * 60 * 24 * 14

/-- The function `StringTimeNodeIsExpired`: it reads the clock once. -/
def StringTimeNodeIsExpired (clock : Nat → time_t) (k : Nat) (n : StringTimeNode) :
    Bool × Nat :=
  (decide ((time clock k).1 > n.t + TWO_WEEKS_IN_SECONDS), (time clock k).2)

/-- The loop of `StringTimeNodeListGetExpired`. -/
def StringTimeNodeListGetExpiredLoop (clock : Nat → time_t) :
    List StringTimeNode → List StringTimeNode → Nat → List StringTimeNode × Nat
  | [], expiredList, k => (expiredList, k)
  | curr :: rest, expiredList, k =>
    if (StringTimeNodeIsExpired clock k curr).1 then
      StringTimeNodeListGetExpiredLoop clock rest
        (StringTimeNodeAllocAndInsert clock (StringTimeNodeIsExpired clock k curr).2
          expiredList curr.s curr.t).1
        (StringTimeNodeAllocAndInsert clock (StringTimeNodeIsExpired clock k curr).2
          expiredList curr.s curr.t).2
    else
      StringTimeNodeListGetExpiredLoop clock rest expiredList
        (StringTimeNodeIsExpired clock k curr).2

/-- The function `StringTimeNodeListGetExpired(head)`. -/
def StringTimeNodeListGetExpired (clock : Nat → time_t) (k : Nat)
    (head : List StringTimeNode) : List StringTimeNode × Nat :=
  StringTimeNodeListGetExpiredLoop clock head [] k

/-- The function `StringTimeNodeListAdd(head, toAdd)`. -/
def StringTimeNodeListAdd (clock : Nat → time_t) :
    List StringTimeNode → List StringTimeNode → Nat → List StringTimeNode × Nat
  | [], head, k => (head, k)
  | curr :: rest, head, k =>
    StringTimeNodeListAdd clock rest
      (StringTimeNodeAllocAndInsert clock k head curr.s curr.t).1
      (StringTimeNodeAllocAndInsert clock k head curr.s curr.t).2

/-- The loop of `StringTimeNodeListRemoveExpired`. -/
def StringTimeNodeListRemoveExpiredLoop (clock : Nat → time_t) :
    List StringTimeNode → List StringTimeNode → Nat → List StringTimeNode × Nat
  | [], newHead, k => (newHead, k)
  | curr :: rest, newHead, k =>
    if !(StringTimeNodeIsExpired clock k curr).1 then
      StringTimeNodeListRemoveExpiredLoop clock rest
        (StringTimeNodeAllocAndInsert clock (StringTimeNodeIsExpired clock k curr).2
          newHead curr.s curr.t).1
        (StringTimeNodeAllocAndInsert clock (StringTimeNodeIsExpired clock k curr).2
          newHead curr.s curr.t).2
    else
      StringTimeNodeListRemoveExpiredLoop clock rest newHead
        (StringTimeNodeIsExpired clock k curr).2

/-- The function `StringTimeNodeListRemoveExpired(head)`: the new value of
`*head` (the old chain is freed). -/
def StringTimeNodeListRemoveExpired (clock : Nat → time_t) (k : Nat)
    (head : List StringTimeNode) : List StringTimeNode × Nat :=
  StringTimeNodeListRemoveExpiredLoop clock head [] k

/-- The function `StringTimeListLen`. -/
def StringTimeListLen : List StringTimeNode → Int
  | [] => 0
  | _ :: rest => StringTimeListLen rest + 1

/-- The loop of `GetNamesAsCommaSeparatedString`; `s` is the `CString` built
so far. -/
def GetNamesAsCommaSeparatedStringLoop : List StringTimeNode → String → String
  | [], s => s
  | curr :: rest, s =>
    GetNamesAsCommaSeparatedStringLoop rest
      (if rest.isEmpty then s ++ curr.s else (s ++ curr.s) ++ ",")

/-- The function `GetNamesAsCommaSeparatedString`. -/
def GetNamesAsCommaSeparatedString (head : List StringTimeNode) : String :=
  GetNamesAsCommaSeparatedStringLoop head ""

/-! ## The remote API -/

/-- The request of one `HttpPost` to the API: which `ApiParams...` built it and
from which network id and name list (the token `g_pref_token` is left out). -/
inductive ApiCall where
  | networkGet
  | typoExceptionsAdd (networkId : String) (names : String)
  | typoExceptionsRemove (networkId : String) (names : String)
deriving DecidableEq, Repr

/-- What the code reads of a parsed JSON reply. -/
structure JsonDoc where
  /-- Whether `GetApiStatus(json)` is `WebApiStatusSuccess`. -/
  statusSuccess : Bool
  /-- The string value of `response.network_id`, when all of it is there. -/
  networkId : Option String
deriving DecidableEq, Repr

/-- The outcome of one `HttpPost`, as far as the callers look at it. -/
inductive HttpReply where
  /-- The result `httpRes` is `NULL` or not `IsValid()`. -/
  | invalid
  /-- The call `getData` returns `NULL`. -/
  | noData
  /-- There is data and `ParseJsonToDoc` returns `NULL`. -/
  | unparsable
  /-- There is data and it parses. -/
  | json (doc : JsonDoc)
deriving DecidableEq, Repr

/-- What the program is run against. -/
structure Env where
  /-- The value returned by the `n`-th call of `time()`. -/
  clock : Nat → time_t
  /-- The reply to the `n`-th `HttpPost`, given its request. -/
  http : Nat → ApiCall → HttpReply
  /-- The `DnsSuffix` of each network adapter. -/
  adapters : List (Option String)
  /-- The network resources, in enumeration order. -/
  resources : List NETRESOURCE
  /-- The result of `CanSendIPUpdates()`. -/
  canSend : Bool

/-- The globals of the module and the record of its calls to the outside. -/
structure World where
  g_allTypoExceptions : List StringTimeNode
  g_allTypoExceptionsCount : Int
  g_inTypoExceptionThread : Bool
  g_pref_network_id : Option String
  /-- The number of `time()` calls made so far. -/
  ticks : Nat
  /-- The `HttpPost` requests issued so far, oldest first. -/
  posts : List ApiCall
deriving DecidableEq, Repr

/-- The call `HttpPost(apiHost, API_URL, paramsTxt, ...)`. -/
def HttpPost (env : Env) (w : World) (req : ApiCall) : HttpReply × World :=
  (env.http w.posts.length req, { w with posts := w.posts ++ [req] })

/-- The function `GetNetworkIdApi`. -/
def GetNetworkIdApi (env : Env) (w : World) : Option String × World :=
  match (HttpPost env w ApiCall.networkGet).1 with
  | HttpReply.invalid => (none, (HttpPost env w ApiCall.networkGet).2)
  | HttpReply.noData => (none, (HttpPost env w ApiCall.networkGet).2)
  | HttpReply.unparsable => (none, (HttpPost env w ApiCall.networkGet).2)
  | HttpReply.json doc =>
    if !doc.statusSuccess then (none, (HttpPost env w ApiCall.networkGet).2)
    else (doc.networkId, (HttpPost env w ApiCall.networkGet).2)

/-- Modelled from the spec: `SetPrefVal` of Prefs.h (not part of the sources at
hand) on `g_pref_network_id`; the cached network id is "set only after a
successful remote resolution", to the resolved id. -/
def SetPrefVal (w : World) (networkId : String) : World :=
  { w with g_pref_network_id := some networkId }

/-- The function `GetNetworkId`. -/
def GetNetworkId (env : Env) (w : World) : Option String × World :=
  match w.g_pref_network_id with
  | some id => (some id, w)
  | none =>
    match (GetNetworkIdApi env w).1 with
    | none => (none, (GetNetworkIdApi env w).2)
    | some networkId =>
      ((SetPrefVal (GetNetworkIdApi env w).2 networkId).g_pref_network_id,
        SetPrefVal (GetNetworkIdApi env w).2 networkId)

/-- The part of `SubmitAddedTypoExceptions` and `SubmitExpiredTypoExceptions`
after the post: `res` starts as `TRUE` and only the `Error` label clears it. -/
def submitResult : HttpReply → Bool
  | HttpReply.invalid => false
  | HttpReply.noData => false
  | HttpReply.unparsable => true
  | HttpReply.json _ => true

/-- The function `SubmitAddedTypoExceptions`. -/
def SubmitAddedTypoExceptions (env : Env) (w : World) (added : List StringTimeNode) :
    Bool × World :=
  if added.isEmpty then (false, w)
  else
    match (GetNetworkId env w).1 with
    | none => (false, (GetNetworkId env w).2)
    | some networkId =>
      (submitResult (HttpPost env (GetNetworkId env w).2
          (ApiCall.typoExceptionsAdd networkId (GetNamesAsCommaSeparatedString added))).1,
        (HttpPost env (GetNetworkId env w).2
          (ApiCall.typoExceptionsAdd networkId (GetNamesAsCommaSeparatedString added))).2)

/-- The function `SubmitExpiredTypoExceptions`. -/
def SubmitExpiredTypoExceptions (env : Env) (w : World) (expired : List StringTimeNode) :
    Bool × World :=
  if expired.isEmpty then (false, w)
  else
    match (GetNetworkId env w).1 with
    | none => (false, (GetNetworkId env w).2)
    | some networkId =>
      (submitResult (HttpPost env (GetNetworkId env w).2
          (ApiCall.typoExceptionsRemove networkId (GetNamesAsCommaSeparatedString expired))).1,
        (HttpPost env (GetNetworkId env w).2
          (ApiCall.typoExceptionsRemove networkId (GetNamesAsCommaSeparatedString expired))).2)

/-! ## The reconciliation pass -/

/-- The function `UpdateTypoExceptionsCount`. -/
def UpdateTypoExceptionsCount (w : World) : World :=
  { w with g_allTypoExceptionsCount := StringTimeListLen w.g_allTypoExceptions }

/-- The state at the end of `SubmitTypoExceptionsThread`: the globals, and the
locals of the pass as they are at the `Exit` label; `expiredOk` and `addedOk`
are `none` when the pass jumped to `Exit` before the two submission calls. -/
structure PassResult where
  world : World
  currentList : List StringTimeNode
  added : List StringTimeNode
  expired : List StringTimeNode
  expiredOk : Option Bool
  addedOk : Option Bool
deriving DecidableEq, Repr

/-- The function `SubmitTypoExceptionsThread`. -/
def SubmitTypoExceptionsThread (env : Env) (w : World) : PassResult :=
  let w0 : World := { w with g_inTypoExceptionThread := true }
  let cur := GetTypoExceptions env.clock env.adapters env.resources w0.ticks
  let w1 : World := { w0 with ticks := cur.2 }
  let typoExceptionsCount := StringTimeListLen cur.1
  if typoExceptionsCount > MAX_TYPO_EXCEPTIONS then
    { world := { w1 with g_allTypoExceptionsCount := typoExceptionsCount,
                         g_inTypoExceptionThread := false },
      currentList := cur.1, added := [], expired := [],
      expiredOk := none, addedOk := none }
  else
    let add := StringTimeNodeListGetAdded env.clock w1.ticks w1.g_allTypoExceptions cur.1
    let exp := StringTimeNodeListGetExpired env.clock add.2 w1.g_allTypoExceptions
    let w2 : World := { w1 with ticks := exp.2 }
    let e := SubmitExpiredTypoExceptions env w2 exp.1
    let a := SubmitAddedTypoExceptions env e.2 add.1
    let w3 : World :=
      if a.1 then
        { a.2 with
          g_allTypoExceptions :=
            (StringTimeNodeListAdd env.clock add.1 a.2.g_allTypoExceptions a.2.ticks).1,
          ticks := (StringTimeNodeListAdd env.clock add.1 a.2.g_allTypoExceptions a.2.ticks).2 }
      else a.2
    let w4 : World :=
      if e.1 then
        { w3 with
          g_allTypoExceptions :=
            (StringTimeNodeListRemoveExpired env.clock w3.ticks w3.g_allTypoExceptions).1,
          ticks := (StringTimeNodeListRemoveExpired env.clock w3.ticks w3.g_allTypoExceptions).2 }
      else w3
    { world := { UpdateTypoExceptionsCount w4 with g_inTypoExceptionThread := false },
      currentList := cur.1, added := add.1, expired := exp.1,
      expiredOk := some e.1, addedOk := some a.1 }

/-- The function `SubmitTypoExceptionsAsync`: whether it calls `CreateThread` on
`SubmitTypoExceptionsThread`, and the world it leaves. `CanSendIPUpdates()` is
not part of the sources at hand; it is taken as a query with the answer
`env.canSend` and no effect on the globals of this module. -/
def SubmitTypoExceptionsAsync (env : Env) (w : World) : Bool × World :=
  if !env.canSend then (false, w)
  else if w.g_inTypoExceptionThread then (false, w)
  else (true, w)

/-- The function `TypoExceptionsCount`. -/
def TypoExceptionsCount (w : World) : Int :=
  w.g_allTypoExceptionsCount

/-! ## Threads

`CreateThread` only creates the thread; its body `SubmitTypoExceptionsThread`
begins some time later with the statement `g_inTypoExceptionThread = TRUE` and
ends with `g_inTypoExceptionThread = FALSE`. The process is followed at the
grain of three events: a call of `SubmitTypoExceptionsAsync`, the start of a
created pass and the end of a started pass. What the pass does to the list in
between is applied when it ends. -/

/-- The module together with its threads. -/
structure System where
  world : World
  /-- The threads created whose body has not begun. -/
  created : Nat
  /-- The passes that have begun and not ended. -/
  running : Nat
deriving DecidableEq, Repr

/-- The events of the process. -/
inductive Event where
  /-- A call of `SubmitTypoExceptionsAsync`. -/
  | trigger
  /-- A created thread begins `SubmitTypoExceptionsThread`. -/
  | start
  /-- A pass that has begun reaches the end of `SubmitTypoExceptionsThread`. -/
  | finish
deriving DecidableEq, Repr

/-- One event. A `start` with no created thread and a `finish` with no running
pass cannot happen and leave the system as it is. -/
def step (env : Env) (sys : System) : Event → System
  | Event.trigger =>
    if (SubmitTypoExceptionsAsync env sys.world).1 then
      { sys with world := (SubmitTypoExceptionsAsync env sys.world).2,
                 created := sys.created + 1 }
    else { sys with world := (SubmitTypoExceptionsAsync env sys.world).2 }
  | Event.start =>
    if sys.created = 0 then sys
    else
      { world := { sys.world with g_inTypoExceptionThread := true },
        created := sys.created - 1, running := sys.running + 1 }
  | Event.finish =>
    if sys.running = 0 then sys
    else
      { sys with world := (SubmitTypoExceptionsThread env sys.world).world,
                 running := sys.running - 1 }

/-- A sequence of events, from the left. -/
def run (env : Env) : System → List Event → System
  | sys, [] => sys
  | sys, ev :: rest => run env (step env sys ev) rest

/-- The number of passes in flight: created or begun, and not ended. -/
def inFlight (sys : System) : Nat :=
  sys.created + sys.running

/-! ## Vocabulary of the statements -/

/-- The names of a list, in list order. -/
def names (l : List StringTimeNode) : List String :=
  l.map (fun e => e.s)

/-- The entry that `StringTimeNodeAllocAndInsert(head, e.s, e.t)` allocates when
every clock reading is `now`: a zero timestamp is read again from the clock. -/
def copyAt (now : time_t) (e : StringTimeNode) : StringTimeNode :=
  { s := e.s, t := if e.t = 0 then now else e.t }

/-- No two entries of the list have names equal ignoring case. -/
def NoCaseDup (l : List StringTimeNode) : Prop :=
  l.Pairwise (fun a b => strieq a.s b.s = false)

instance (l : List StringTimeNode) : Decidable (NoCaseDup l) := by
  unfold NoCaseDup; infer_instance

/-- Two worlds that differ at most in the cached network id and the post log. -/
def SameLocal (w1 w2 : World) : Prop :=
  w1.g_allTypoExceptions = w2.g_allTypoExceptions ∧
  w1.g_allTypoExceptionsCount = w2.g_allTypoExceptionsCount ∧
  w1.g_inTypoExceptionThread = w2.g_inTypoExceptionThread ∧
  w1.ticks = w2.ticks

/-- The snapshot of the pass and the clock counter after it. -/
def passSnapshot (env : Env) (w : World) : List StringTimeNode × Nat :=
  GetTypoExceptions env.clock env.adapters env.resources w.ticks

/-- The added list of an uncapped pass and the clock counter after it. -/
def passAdded (env : Env) (w : World) : List StringTimeNode × Nat :=
  StringTimeNodeListGetAdded env.clock (passSnapshot env w).2 w.g_allTypoExceptions
    (passSnapshot env w).1

/-- The expired list of an uncapped pass and the clock counter after it. -/
def passExpired (env : Env) (w : World) : List StringTimeNode × Nat :=
  StringTimeNodeListGetExpired env.clock (passAdded env w).2 w.g_allTypoExceptions

/-- The outcome of the remove-submission of an uncapped pass. -/
def passRemove (env : Env) (w : World) : Bool × World :=
  SubmitExpiredTypoExceptions env
    { w with g_inTypoExceptionThread := true, ticks := (passExpired env w).2 }
    (passExpired env w).1

/-- The outcome of the add-submission of an uncapped pass. -/
def passAdd (env : Env) (w : World) : Bool × World :=
  SubmitAddedTypoExceptions env (passRemove env w).2 (passAdded env w).1

/-- The list after the statement `if (addedOk) StringTimeNodeListAdd(...)`, with
the clock counter. -/
def passMerged (env : Env) (w : World) : List StringTimeNode × Nat :=
  if (passAdd env w).1 then
    StringTimeNodeListAdd env.clock (passAdded env w).1 w.g_allTypoExceptions
      (passExpired env w).2
  else (w.g_allTypoExceptions, (passExpired env w).2)

/-- The list after the statement `if (expiredOk) StringTimeNodeListRemoveExpired(...)`,
with the clock counter. -/
def passRebuilt (env : Env) (w : World) : List StringTimeNode × Nat :=
  if (passRemove env w).1 then
    StringTimeNodeListRemoveExpired env.clock (passMerged env w).2 (passMerged env w).1
  else passMerged env w

/-- No call of `SubmitTypoExceptionsAsync` in the sequence happens while a
created thread has not begun its pass. -/
def PromptStart (env : Env) : System → List Event → Prop
  | _, [] => True
  | sys, ev :: rest =>
    (ev = Event.trigger → sys.created = 0) ∧ PromptStart env (step env sys ev) rest

/-- Whether a sequence satisfies `PromptStart` can be computed. -/
def decidePromptStart (env : Env) :
    (sys : System) → (evs : List Event) → Decidable (PromptStart env sys evs)
  | _, [] => isTrue trivial
  | sys, ev :: rest =>
    match decidePromptStart env (step env sys ev) rest with
    | isTrue h =>
      if h2 : ev = Event.trigger → sys.created = 0 then isTrue ⟨h2, h⟩
      else isFalse (fun h3 => h2 h3.1)
    | isFalse h => isFalse (fun h3 => h h3.2)

instance (env : Env) (sys : System) (evs : List Event) :
    Decidable (PromptStart env sys evs) :=
  decidePromptStart env sys evs

/-- The world after one pass for each environment of the list, in order. -/
def runPasses : List Env → World → World
  | [], w => w
  | env :: rest, w => runPasses rest (SubmitTypoExceptionsThread env w).world

/-- The entry `x` is a copy of the entry `e` as `StringTimeNodeAllocAndInsert`
makes it: the same name, and the same timestamp unless that of `e` is zero. -/
def CopyOf (x e : StringTimeNode) : Prop :=
  x.s = e.s ∧ (e.t ≠ 0 → x.t = e.t)

/-! ## Example runs -/

/-- A reply that parses and reports success, with a network id. -/
def replyOk : HttpReply :=
  HttpReply.json { statusSuccess := true, networkId := some "n1" }

/-- A reply that parses and reports a non-success status. -/
def replyBadStatus : HttpReply :=
  HttpReply.json { statusSuccess := false, networkId := none }

/-- A run at clock reading 2000000 where the adapters yield the suffixes `foo`
and `bar` and every post is answered with success. -/
def envFooBar : Env :=
  { clock := fun _ => 2000000, http := fun _ _ => replyOk,
    adapters := [some "bar", some "foo"], resources := [], canSend := true }

/-- The same run with every post answered by a non-success status. -/
def envBadStatus : Env :=
  { clock := fun _ => 2000000, http := fun _ _ => replyBadStatus,
    adapters := [some "bar", some "foo"], resources := [], canSend := true }

/-- The same run with every post failing in transport. -/
def envOffline : Env :=
  { clock := fun _ => 2000000, http := fun _ _ => HttpReply.invalid,
    adapters := [some "bar", some "foo"], resources := [], canSend := true }

/-- A run where two adapters report one suffix in two spellings. -/
def envTwice : Env :=
  { clock := fun _ => 2000000, http := fun _ _ => replyOk,
    adapters := [some "host", some "HOST"], resources := [], canSend := true }

/-- A run where the adapters yield 26 suffixes. -/
def envMany : Env :=
  { clock := fun _ => 2000000, http := fun _ _ => replyOk,
    adapters := List.replicate 26 (some "host"), resources := [], canSend := true }

/-- The run of `envFooBar` with the remove request failing in transport. -/
def envRemoveFails : Env :=
  { clock := fun _ => 2000000,
    http := fun _ req =>
      match req with
      | ApiCall.typoExceptionsRemove _ _ => HttpReply.invalid
      | _ => replyOk,
    adapters := [some "bar", some "foo"], resources := [], canSend := true }

/-- The run of `envFooBar` with the add request failing in transport. -/
def envAddFails : Env :=
  { clock := fun _ => 2000000,
    http := fun _ req =>
      match req with
      | ApiCall.typoExceptionsAdd _ _ => HttpReply.invalid
      | _ => replyOk,
    adapters := [some "bar", some "foo"], resources := [], canSend := true }

/-- The world at program start. -/
def worldStart : World :=
  { g_allTypoExceptions := [], g_allTypoExceptionsCount := 0,
    g_inTypoExceptionThread := false, g_pref_network_id := none,
    ticks := 0, posts := [] }

/-- A world that knows `foo`, first seen at 1500000, with no cached network id. -/
def worldFoo : World :=
  { g_allTypoExceptions := [{ s := "foo", t := 1500000 }],
    g_allTypoExceptionsCount := 1, g_inTypoExceptionThread := false,
    g_pref_network_id := none, ticks := 0, posts := [] }

/-- A world that knows `foo`, first seen more than 14 days before 2000000. -/
def worldOldFoo : World :=
  { g_allTypoExceptions := [{ s := "foo", t := 700000 }],
    g_allTypoExceptionsCount := 1, g_inTypoExceptionThread := false,
    g_pref_network_id := some "n1", ticks := 0, posts := [] }

/-- A world with an empty list and a cached network id. -/
def worldEmpty : World :=
  { g_allTypoExceptions := [], g_allTypoExceptionsCount := 0,
    g_inTypoExceptionThread := false, g_pref_network_id := some "n1",
    ticks := 0, posts := [] }

/-- A run with no names on the network where the clock reads 2000000 at its
first two readings and 2100000 from then on. -/
def envLate : Env :=
  { clock := fun n => if n < 2 then 2000000 else 2100000, http := fun _ _ => replyOk,
    adapters := [], resources := [], canSend := true }

/-- A world that knows `old`, expired at 2000000, and `mid`, expired at 2100000
and not yet at 2000000. -/
def worldOldMid : World :=
  { g_allTypoExceptions := [{ s := "old", t := 700000 }, { s := "mid", t := 800000 }],
    g_allTypoExceptionsCount := 2, g_inTypoExceptionThread := false,
    g_pref_network_id := some "n1", ticks := 0, posts := [] }

/-- A run where the adapters yield `a` and the clock reads 0 at its first four
readings, 2000000 at the next two and 1000000 from then on. -/
def envEpoch : Env :=
  { clock := fun n => if n < 4 then 0 else if n < 6 then 2000000 else 1000000,
    http := fun _ _ => replyOk,
    adapters := [some "a"], resources := [], canSend := true }

/-- A run at clock reading 2000000 where the adapters yield `mid` and every post
is answered with success. -/
def envMid : Env :=
  { clock := fun _ => 2000000, http := fun _ _ => replyOk,
    adapters := [some "mid"], resources := [], canSend := true }

/-- The system at program start: no thread, the world `worldStart`. -/
def systemStart : System :=
  { world := worldStart, created := 0, running := 0 }

/-! ## Basic facts -/

theorem strieq_refl (a : String) : strieq a a = true := by
  simp [strieq]

theorem strieq_symm (a b : String) : strieq a b = strieq b a := by
  simp only [strieq]
  by_cases h : foldCase a = foldCase b
  · simp [h]
  · have h2 : ¬ foldCase b = foldCase a := fun h3 => h h3.symm
    simp [h, h2]

theorem strieq_trans {a b c : String} (h1 : strieq a b = true) (h2 : strieq b c = true) :
    strieq a c = true := by
  simp only [strieq, decide_eq_true_eq] at *
  exact h1.trans h2

theorem exists_iff (all : List StringTimeNode) (s : String) :
    StringTimeNodeExists all s = true ↔ ∃ e ∈ all, strieq e.s s = true := by
  induction all with
  | nil => simp [StringTimeNodeExists]
  | cons a rest ih =>
    unfold StringTimeNodeExists
    by_cases h : strieq a.s s = true
    · rw [if_pos h]
      exact ⟨fun _ => ⟨a, List.mem_cons_self _ _, h⟩, fun _ => rfl⟩
    · rw [if_neg h, ih]
      constructor
      · rintro ⟨e, he, hs⟩
        exact ⟨e, List.mem_cons_of_mem _ he, hs⟩
      · rintro ⟨e, he, hs⟩
        rcases List.mem_cons.mp he with he | he
        · rw [he] at hs; exact absurd hs h
        · exact ⟨e, he, hs⟩

theorem exists_false_iff (all : List StringTimeNode) (s : String) :
    StringTimeNodeExists all s = false ↔ ∀ e ∈ all, strieq e.s s = false := by
  rw [← Bool.not_eq_true, exists_iff]
  simp

theorem len_eq_length (l : List StringTimeNode) : StringTimeListLen l = (l.length : Int) := by
  induction l with
  | nil => rfl
  | cons a rest ih => simp [StringTimeListLen, ih]

theorem alloc_name (clock : Nat → time_t) (k : Nat) (s : String) (t : time_t) :
    (StringTimeNodeAlloc clock k s t).1.s = s := by
  unfold StringTimeNodeAlloc
  split <;> rfl

theorem alloc_ticks_le (clock : Nat → time_t) (k : Nat) (s : String) (t : time_t) :
    k ≤ (StringTimeNodeAlloc clock k s t).2 := by
  unfold StringTimeNodeAlloc time
  split <;> simp

theorem alloc_const (clock : Nat → time_t) (K : Nat) (now : time_t)
    (hc : ∀ n, K ≤ n → clock n = now) (k : Nat) (hk : K ≤ k) (s : String) (t : time_t) :
    (StringTimeNodeAlloc clock k s t).1 = copyAt now { s := s, t := t } := by
  unfold StringTimeNodeAlloc time copyAt
  split <;> simp_all

/-! ### The added list -/

theorem getAddedLoop_names (clock : Nat → time_t) (all : List StringTimeNode) :
    ∀ (current added : List StringTimeNode) (k : Nat),
      names (StringTimeNodeListGetAddedLoop clock all current added k).1 =
        (names (current.filter (fun e => !StringTimeNodeExists all e.s))).reverse
          ++ names added := by
  intro current
  induction current with
  | nil => intro added k; simp [StringTimeNodeListGetAddedLoop, names]
  | cons c rest ih =>
    intro added k
    unfold StringTimeNodeListGetAddedLoop
    by_cases h : StringTimeNodeExists all c.s = true
    · simp [h, ih, List.filter_cons]
    · simp only [Bool.not_eq_true] at h
      simp only [h, Bool.not_false, if_true]
      rw [ih]
      simp [List.filter_cons, h, names, StringTimeNodeAllocAndInsert,
        StringTimeNodeInsert, alloc_name]

theorem getAdded_mem_names (clock : Nat → time_t) (k : Nat)
    (all current : List StringTimeNode) (name : String) :
    name ∈ names (StringTimeNodeListGetAdded clock k all current).1 ↔
      name ∈ names current ∧ ∀ e ∈ all, strieq e.s name = false := by
  unfold StringTimeNodeListGetAdded
  rw [getAddedLoop_names]
  simp only [names, List.map_nil, List.append_nil, List.mem_reverse, List.mem_map,
    List.mem_filter, Bool.not_eq_true']
  constructor
  · rintro ⟨e, ⟨he, hx⟩, rfl⟩
    exact ⟨⟨e, he, rfl⟩, (exists_false_iff all e.s).mp hx⟩
  · rintro ⟨⟨e, he, rfl⟩, hx⟩
    exact ⟨e, ⟨he, (exists_false_iff all e.s).mpr hx⟩, rfl⟩

theorem getAddedLoop_ticks_le (clock : Nat → time_t) (all : List StringTimeNode) :
    ∀ (current added : List StringTimeNode) (k : Nat),
      k ≤ (StringTimeNodeListGetAddedLoop clock all current added k).2 := by
  intro current
  induction current with
  | nil => intro added k; simp [StringTimeNodeListGetAddedLoop]
  | cons c rest ih =>
    intro added k
    unfold StringTimeNodeListGetAddedLoop
    split
    · exact le_trans (alloc_ticks_le clock k c.s 0) (ih _ _)
    · exact ih _ _

theorem getAddedLoop_const (clock : Nat → time_t) (K : Nat) (now : time_t)
    (hc : ∀ n, K ≤ n → clock n = now) (all : List StringTimeNode) :
    ∀ (current added : List StringTimeNode) (k : Nat), K ≤ k →
      (StringTimeNodeListGetAddedLoop clock all current added k).1 =
        ((current.filter (fun e => !StringTimeNodeExists all e.s)).map
          (fun e => ({ s := e.s, t := now } : StringTimeNode))).reverse ++ added := by
  intro current
  induction current with
  | nil => intro added k _; simp [StringTimeNodeListGetAddedLoop]
  | cons c rest ih =>
    intro added k hk
    unfold StringTimeNodeListGetAddedLoop
    by_cases h : StringTimeNodeExists all c.s = true
    · simp [h, ih _ _ hk, List.filter_cons]
    · simp only [Bool.not_eq_true] at h
      have hk2 : K ≤ (StringTimeNodeAllocAndInsert clock k added c.s 0).2 :=
        le_trans hk (alloc_ticks_le clock k c.s 0)
      simp only [h, Bool.not_false, if_true]
      rw [ih _ _ hk2]
      simp [List.filter_cons, h, StringTimeNodeAllocAndInsert,
        StringTimeNodeInsert, alloc_const clock K now hc k hk, copyAt]

/-! ### Expiry -/

theorem two_weeks_eq : TWO_WEEKS_IN_SECONDS = 1209600 := by
  unfold TWO_WEEKS_IN_SECONDS; norm_num

theorem isExpired_ticks (clock : Nat → time_t) (k : Nat) (e : StringTimeNode) :
    (StringTimeNodeIsExpired clock k e).2 = k + 1 := rfl

theorem isExpired_const (clock : Nat → time_t) (K : Nat) (now : time_t)
    (hc : ∀ n, K ≤ n → clock n = now) (k : Nat) (hk : K ≤ k) (e : StringTimeNode) :
    (StringTimeNodeIsExpired clock k e).1 = decide (now > e.t + 1209600) := by
  simp [StringTimeNodeIsExpired, time, hc k hk, two_weeks_eq]

theorem getExpiredLoop_ticks_le (clock : Nat → time_t) :
    ∀ (head expiredList : List StringTimeNode) (k : Nat),
      k ≤ (StringTimeNodeListGetExpiredLoop clock head expiredList k).2 := by
  intro head
  induction head with
  | nil => intro acc k; simp [StringTimeNodeListGetExpiredLoop]
  | cons c rest ih =>
    intro acc k
    unfold StringTimeNodeListGetExpiredLoop
    split
    · refine le_trans ?_ (ih _ _)
      exact le_trans (Nat.le_succ k) (alloc_ticks_le clock (k + 1) c.s c.t)
    · exact le_trans (Nat.le_succ k) (ih _ _)

theorem getExpiredLoop_const (clock : Nat → time_t) (K : Nat) (now : time_t)
    (hc : ∀ n, K ≤ n → clock n = now) :
    ∀ (head expiredList : List StringTimeNode) (k : Nat), K ≤ k →
      (StringTimeNodeListGetExpiredLoop clock head expiredList k).1 =
        ((head.filter (fun e => decide (now > e.t + 1209600))).map (copyAt now)).reverse
          ++ expiredList := by
  intro head
  induction head with
  | nil => intro acc k _; simp [StringTimeNodeListGetExpiredLoop]
  | cons c rest ih =>
    intro acc k hk
    unfold StringTimeNodeListGetExpiredLoop
    rw [isExpired_const clock K now hc k hk, isExpired_ticks]
    have hk1 : K ≤ k + 1 := le_trans hk (Nat.le_succ k)
    by_cases h : now > c.t + 1209600
    · have hk2 : K ≤ (StringTimeNodeAllocAndInsert clock (k + 1) acc c.s c.t).2 :=
        le_trans hk1 (alloc_ticks_le clock (k + 1) c.s c.t)
      simp only [h, decide_True, if_true]
      rw [ih _ _ hk2]
      simp [List.filter_cons, h, StringTimeNodeAllocAndInsert, StringTimeNodeInsert,
        alloc_const clock K now hc (k + 1) hk1]
    · simp only [h, decide_False, Bool.false_eq_true, if_false]
      rw [ih _ _ hk1]
      simp [List.filter_cons, h]

theorem getExpiredLoop_sublist (clock : Nat → time_t) :
    ∀ (head expiredList : List StringTimeNode) (k : Nat),
      ∃ l, l.Sublist head ∧
        names (StringTimeNodeListGetExpiredLoop clock head expiredList k).1 =
          (names l).reverse ++ names expiredList := by
  intro head
  induction head with
  | nil => intro acc k; exact ⟨[], List.Sublist.refl _, by simp [StringTimeNodeListGetExpiredLoop, names]⟩
  | cons c rest ih =>
    intro acc k
    unfold StringTimeNodeListGetExpiredLoop
    split
    · obtain ⟨l, hl, hn⟩ := ih (StringTimeNodeAllocAndInsert clock
          (StringTimeNodeIsExpired clock k c).2 acc c.s c.t).1
          (StringTimeNodeAllocAndInsert clock (StringTimeNodeIsExpired clock k c).2 acc c.s c.t).2
      refine ⟨c :: l, hl.cons₂ c, ?_⟩
      rw [hn]
      simp [names, StringTimeNodeAllocAndInsert, StringTimeNodeInsert, alloc_name]
    · obtain ⟨l, hl, hn⟩ := ih acc (StringTimeNodeIsExpired clock k c).2
      exact ⟨l, hl.cons c, hn⟩

theorem removeExpiredLoop_ticks_le (clock : Nat → time_t) :
    ∀ (head newHead : List StringTimeNode) (k : Nat),
      k ≤ (StringTimeNodeListRemoveExpiredLoop clock head newHead k).2 := by
  intro head
  induction head with
  | nil => intro acc k; simp [StringTimeNodeListRemoveExpiredLoop]
  | cons c rest ih =>
    intro acc k
    unfold StringTimeNodeListRemoveExpiredLoop
    split
    · refine le_trans ?_ (ih _ _)
      exact le_trans (Nat.le_succ k) (alloc_ticks_le clock (k + 1) c.s c.t)
    · exact le_trans (Nat.le_succ k) (ih _ _)

theorem removeExpiredLoop_const (clock : Nat → time_t) (K : Nat) (now : time_t)
    (hc : ∀ n, K ≤ n → clock n = now) :
    ∀ (head newHead : List StringTimeNode) (k : Nat), K ≤ k →
      (StringTimeNodeListRemoveExpiredLoop clock head newHead k).1 =
        ((head.filter (fun e => !decide (now > e.t + 1209600))).map (copyAt now)).reverse
          ++ newHead := by
  intro head
  induction head with
  | nil => intro acc k _; simp [StringTimeNodeListRemoveExpiredLoop]
  | cons c rest ih =>
    intro acc k hk
    unfold StringTimeNodeListRemoveExpiredLoop
    rw [isExpired_const clock K now hc k hk, isExpired_ticks]
    have hk1 : K ≤ k + 1 := le_trans hk (Nat.le_succ k)
    by_cases h : now > c.t + 1209600
    · simp only [h, decide_True, Bool.not_true, Bool.false_eq_true, if_false]
      rw [ih _ _ hk1]
      simp [List.filter_cons, h]
    · have hk2 : K ≤ (StringTimeNodeAllocAndInsert clock (k + 1) acc c.s c.t).2 :=
        le_trans hk1 (alloc_ticks_le clock (k + 1) c.s c.t)
      simp only [h, decide_False, Bool.not_false, if_true]
      rw [ih _ _ hk2]
      simp [List.filter_cons, h, StringTimeNodeAllocAndInsert, StringTimeNodeInsert,
        alloc_const clock K now hc (k + 1) hk1]

theorem removeExpiredLoop_sublist (clock : Nat → time_t) :
    ∀ (head newHead : List StringTimeNode) (k : Nat),
      ∃ l, l.Sublist head ∧
        names (StringTimeNodeListRemoveExpiredLoop clock head newHead k).1 =
          (names l).reverse ++ names newHead := by
  intro head
  induction head with
  | nil =>
    intro acc k
    exact ⟨[], List.Sublist.refl _, by simp [StringTimeNodeListRemoveExpiredLoop, names]⟩
  | cons c rest ih =>
    intro acc k
    unfold StringTimeNodeListRemoveExpiredLoop
    split
    · obtain ⟨l, hl, hn⟩ := ih (StringTimeNodeAllocAndInsert clock
          (StringTimeNodeIsExpired clock k c).2 acc c.s c.t).1
          (StringTimeNodeAllocAndInsert clock (StringTimeNodeIsExpired clock k c).2 acc c.s c.t).2
      refine ⟨c :: l, hl.cons₂ c, ?_⟩
      rw [hn]
      simp [names, StringTimeNodeAllocAndInsert, StringTimeNodeInsert, alloc_name]
    · obtain ⟨l, hl, hn⟩ := ih acc (StringTimeNodeIsExpired clock k c).2
      exact ⟨l, hl.cons c, hn⟩

/-! ### Merging -/

theorem listAdd_ticks_le (clock : Nat → time_t) :
    ∀ (toAdd head : List StringTimeNode) (k : Nat),
      k ≤ (StringTimeNodeListAdd clock toAdd head k).2 := by
  intro toAdd
  induction toAdd with
  | nil => intro head k; simp [StringTimeNodeListAdd]
  | cons c rest ih =>
    intro head k
    unfold StringTimeNodeListAdd
    exact le_trans (alloc_ticks_le clock k c.s c.t) (ih _ _)

theorem listAdd_suffix (clock : Nat → time_t) :
    ∀ (toAdd head : List StringTimeNode) (k : Nat),
      ∃ pre, (StringTimeNodeListAdd clock toAdd head k).1 = pre ++ head ∧
        names pre = (names toAdd).reverse := by
  intro toAdd
  induction toAdd with
  | nil => intro head k; exact ⟨[], by simp [StringTimeNodeListAdd, names]⟩
  | cons c rest ih =>
    intro head k
    unfold StringTimeNodeListAdd
    obtain ⟨pre, hp, hn⟩ := ih (StringTimeNodeAllocAndInsert clock k head c.s c.t).1
      (StringTimeNodeAllocAndInsert clock k head c.s c.t).2
    refine ⟨pre ++ [(StringTimeNodeAlloc clock k c.s c.t).1], ?_, ?_⟩
    · rw [hp]; simp [StringTimeNodeAllocAndInsert, StringTimeNodeInsert]
    · simp [names, alloc_name] at hn ⊢
      exact hn

theorem listAdd_const (clock : Nat → time_t) (K : Nat) (now : time_t)
    (hc : ∀ n, K ≤ n → clock n = now) :
    ∀ (toAdd head : List StringTimeNode) (k : Nat), K ≤ k →
      (StringTimeNodeListAdd clock toAdd head k).1 =
        (toAdd.map (copyAt now)).reverse ++ head := by
  intro toAdd
  induction toAdd with
  | nil => intro head k _; simp [StringTimeNodeListAdd]
  | cons c rest ih =>
    intro head k hk
    unfold StringTimeNodeListAdd
    have hk2 : K ≤ (StringTimeNodeAllocAndInsert clock k head c.s c.t).2 :=
      le_trans hk (alloc_ticks_le clock k c.s c.t)
    rw [ih _ _ hk2]
    simp [StringTimeNodeAllocAndInsert, StringTimeNodeInsert, alloc_const clock K now hc k hk]

/-! ### The remote calls leave the list, the count and the clock alone -/

theorem SameLocal.rfl (w : World) : SameLocal w w := ⟨Eq.refl _, Eq.refl _, Eq.refl _, Eq.refl _⟩

theorem SameLocal.trans {w1 w2 w3 : World} (h1 : SameLocal w1 w2) (h2 : SameLocal w2 w3) :
    SameLocal w1 w3 :=
  ⟨h1.1.trans h2.1, h1.2.1.trans h2.2.1, h1.2.2.1.trans h2.2.2.1, h1.2.2.2.trans h2.2.2.2⟩

theorem httpPost_sameLocal (env : Env) (w : World) (req : ApiCall) :
    SameLocal (HttpPost env w req).2 w := ⟨rfl, rfl, rfl, rfl⟩

theorem getNetworkIdApi_world (env : Env) (w : World) :
    (GetNetworkIdApi env w).2 = (HttpPost env w ApiCall.networkGet).2 := by
  unfold GetNetworkIdApi
  split
  · rfl
  · rfl
  · rfl
  · split <;> rfl

theorem getNetworkId_sameLocal (env : Env) (w : World) :
    SameLocal (GetNetworkId env w).2 w := by
  unfold GetNetworkId
  split
  · exact SameLocal.rfl w
  · split
    · rw [getNetworkIdApi_world]; exact httpPost_sameLocal env w _
    · rw [getNetworkIdApi_world]; exact ⟨rfl, rfl, rfl, rfl⟩

theorem submitAdded_sameLocal (env : Env) (w : World) (added : List StringTimeNode) :
    SameLocal (SubmitAddedTypoExceptions env w added).2 w := by
  unfold SubmitAddedTypoExceptions
  split
  · exact SameLocal.rfl w
  · split
    · exact getNetworkId_sameLocal env w
    · exact (httpPost_sameLocal env _ _).trans (getNetworkId_sameLocal env w)

theorem submitExpired_sameLocal (env : Env) (w : World) (expired : List StringTimeNode) :
    SameLocal (SubmitExpiredTypoExceptions env w expired).2 w := by
  unfold SubmitExpiredTypoExceptions
  split
  · exact SameLocal.rfl w
  · split
    · exact getNetworkId_sameLocal env w
    · exact (httpPost_sameLocal env _ _).trans (getNetworkId_sameLocal env w)

theorem submitAdded_nil (env : Env) (w : World) :
    SubmitAddedTypoExceptions env w [] = (false, w) := rfl

theorem submitExpired_nil (env : Env) (w : World) :
    SubmitExpiredTypoExceptions env w [] = (false, w) := rfl

/-! ### The pass, stage by stage -/

theorem pass_currentList (env : Env) (w : World) :
    (SubmitTypoExceptionsThread env w).currentList = (passSnapshot env w).1 := by
  unfold SubmitTypoExceptionsThread passSnapshot
  simp only []
  split <;> rfl

theorem pass_capped (env : Env) (w : World) (h : 25 < (passSnapshot env w).1.length) :
    SubmitTypoExceptionsThread env w =
      { world := { w with
          g_allTypoExceptionsCount := ((passSnapshot env w).1.length : Int),
          g_inTypoExceptionThread := false,
          ticks := (passSnapshot env w).2 },
        currentList := (passSnapshot env w).1,
        added := [], expired := [], expiredOk := none, addedOk := none } := by
  unfold passSnapshot at h ⊢
  have h2 : StringTimeListLen (GetTypoExceptions env.clock env.adapters env.resources w.ticks).1
      > MAX_TYPO_EXCEPTIONS := by
    rw [len_eq_length]; unfold MAX_TYPO_EXCEPTIONS; exact_mod_cast h
  unfold SubmitTypoExceptionsThread
  simp only []
  rw [if_pos h2, len_eq_length]

theorem passRemove_sameLocal (env : Env) (w : World) :
    SameLocal (passRemove env w).2
      { w with g_inTypoExceptionThread := true, ticks := (passExpired env w).2 } :=
  submitExpired_sameLocal env _ _

theorem passAdd_sameLocal (env : Env) (w : World) :
    SameLocal (passAdd env w).2
      { w with g_inTypoExceptionThread := true, ticks := (passExpired env w).2 } :=
  (submitAdded_sameLocal env _ _).trans (passRemove_sameLocal env w)

theorem pass_uncapped (env : Env) (w : World)
    (h : (passSnapshot env w).1.length ≤ 25) :
    SubmitTypoExceptionsThread env w =
      { world := { (passAdd env w).2 with
          g_allTypoExceptions := (passRebuilt env w).1,
          g_allTypoExceptionsCount := ((passRebuilt env w).1.length : Int),
          g_inTypoExceptionThread := false,
          ticks := (passRebuilt env w).2 },
        currentList := (passSnapshot env w).1,
        added := (passAdded env w).1, expired := (passExpired env w).1,
        expiredOk := some (passRemove env w).1, addedOk := some (passAdd env w).1 } := by
  unfold passSnapshot at h
  have h2 : ¬ StringTimeListLen (GetTypoExceptions env.clock env.adapters env.resources w.ticks).1
      > MAX_TYPO_EXCEPTIONS := by
    rw [len_eq_length]; unfold MAX_TYPO_EXCEPTIONS; exact_mod_cast not_lt.mpr h
  obtain ⟨h1, -, -, h4⟩ := passAdd_sameLocal env w
  simp only [] at h1 h4
  unfold SubmitTypoExceptionsThread
  simp only []
  rw [if_neg h2]
  unfold passRebuilt passMerged
  simp only [UpdateTypoExceptionsCount, len_eq_length]
  unfold passAdd passRemove passExpired passAdded passSnapshot at *
  by_cases ha : (SubmitAddedTypoExceptions env
      (SubmitExpiredTypoExceptions env
        { w with g_inTypoExceptionThread := true,
                 ticks := (StringTimeNodeListGetExpired env.clock
                   (StringTimeNodeListGetAdded env.clock
                     (GetTypoExceptions env.clock env.adapters env.resources w.ticks).2
                     w.g_allTypoExceptions
                     (GetTypoExceptions env.clock env.adapters env.resources w.ticks).1).2
                   w.g_allTypoExceptions).2 }
        (StringTimeNodeListGetExpired env.clock
          (StringTimeNodeListGetAdded env.clock
            (GetTypoExceptions env.clock env.adapters env.resources w.ticks).2
            w.g_allTypoExceptions
            (GetTypoExceptions env.clock env.adapters env.resources w.ticks).1).2
          w.g_allTypoExceptions).1).2
      (StringTimeNodeListGetAdded env.clock
        (GetTypoExceptions env.clock env.adapters env.resources w.ticks).2
        w.g_allTypoExceptions
        (GetTypoExceptions env.clock env.adapters env.resources w.ticks).1).1).1 = true <;>
  by_cases he : (SubmitExpiredTypoExceptions env
        { w with g_inTypoExceptionThread := true,
                 ticks := (StringTimeNodeListGetExpired env.clock
                   (StringTimeNodeListGetAdded env.clock
                     (GetTypoExceptions env.clock env.adapters env.resources w.ticks).2
                     w.g_allTypoExceptions
                     (GetTypoExceptions env.clock env.adapters env.resources w.ticks).1).2
                   w.g_allTypoExceptions).2 }
        (StringTimeNodeListGetExpired env.clock
          (StringTimeNodeListGetAdded env.clock
            (GetTypoExceptions env.clock env.adapters env.resources w.ticks).2
            w.g_allTypoExceptions
            (GetTypoExceptions env.clock env.adapters env.resources w.ticks).1).2
          w.g_allTypoExceptions).1).1 = true <;>
  simp only [ha, he, if_true, if_false, h1, h4, Bool.false_eq_true]

/-! ### The snapshot -/

theorem allocAndInsert_ticks_le (clock : Nat → time_t) (k : Nat)
    (head : List StringTimeNode) (s : String) (t : time_t) :
    k ≤ (StringTimeNodeAllocAndInsert clock k head s t).2 :=
  alloc_ticks_le clock k s t

theorem addToListIfServer_ticks_le (clock : Nat → time_t) (k : Nat)
    (head : List StringTimeNode) (nr : NETRESOURCE) :
    k ≤ (AddToListIfServer clock k head nr).2 := by
  unfold AddToListIfServer
  split
  · split
    · split
      · exact allocAndInsert_ticks_le clock k head _ 0
      · exact le_refl k
    · exact le_refl k
  · exact le_refl k

theorem getNetworkServersEnum_ticks_le (clock : Nat → time_t) :
    ∀ (rs : List NETRESOURCE) (head : List StringTimeNode) (k : Nat),
      k ≤ (GetNetworkServersEnum clock rs head k).2 := by
  intro rs
  induction rs with
  | nil => intro head k; exact le_refl k
  | cons nr rest ih =>
    intro head k
    unfold GetNetworkServersEnum
    exact le_trans (addToListIfServer_ticks_le clock k head nr) (ih _ _)

theorem getDNSPrefixes_ticks_le (clock : Nat → time_t) :
    ∀ (ads : List (Option String)) (head : List StringTimeNode) (k : Nat),
      k ≤ (GetDNSPrefixes clock ads head k).2 := by
  intro ads
  induction ads with
  | nil => intro head k; exact le_refl k
  | cons a rest ih =>
    intro head k
    cases a with
    | none => unfold GetDNSPrefixes; exact ih _ _
    | some dnsSuffix =>
      unfold GetDNSPrefixes
      split
      · exact le_trans (alloc_ticks_le clock k dnsSuffix 0) (ih _ _)
      · exact ih _ _

theorem passSnapshot_ticks_le (env : Env) (w : World) : w.ticks ≤ (passSnapshot env w).2 := by
  unfold passSnapshot GetTypoExceptions
  exact le_trans (getDNSPrefixes_ticks_le env.clock env.adapters [] w.ticks)
    (getNetworkServersEnum_ticks_le env.clock env.resources _ _)

theorem passAdded_ticks_le (env : Env) (w : World) : w.ticks ≤ (passAdded env w).2 := by
  unfold passAdded StringTimeNodeListGetAdded
  exact le_trans (passSnapshot_ticks_le env w) (getAddedLoop_ticks_le _ _ _ _ _)

theorem passExpired_ticks_le (env : Env) (w : World) : w.ticks ≤ (passExpired env w).2 := by
  unfold passExpired StringTimeNodeListGetExpired
  exact le_trans (passAdded_ticks_le env w) (getExpiredLoop_ticks_le _ _ _ _)

theorem passMerged_ticks_le (env : Env) (w : World) : w.ticks ≤ (passMerged env w).2 := by
  unfold passMerged
  split
  · exact le_trans (passExpired_ticks_le env w) (listAdd_ticks_le _ _ _ _)
  · exact passExpired_ticks_le env w

theorem passAdded_const (env : Env) (w : World) (now : time_t)
    (hc : ∀ n, w.ticks ≤ n → env.clock n = now) :
    (passAdded env w).1 =
      (((passSnapshot env w).1.filter
          (fun e => !StringTimeNodeExists w.g_allTypoExceptions e.s)).map
        (fun e => ({ s := e.s, t := now } : StringTimeNode))).reverse := by
  unfold passAdded StringTimeNodeListGetAdded
  rw [getAddedLoop_const env.clock w.ticks now hc _ _ _ _ (passSnapshot_ticks_le env w)]
  simp

theorem passExpired_const (env : Env) (w : World) (now : time_t)
    (hc : ∀ n, w.ticks ≤ n → env.clock n = now) :
    (passExpired env w).1 =
      ((w.g_allTypoExceptions.filter (fun e => decide (now > e.t + 1209600))).map
        (copyAt now)).reverse := by
  unfold passExpired StringTimeNodeListGetExpired
  rw [getExpiredLoop_const env.clock w.ticks now hc _ _ _ (passAdded_ticks_le env w)]
  simp

theorem copyAt_stamped (now : time_t) (s : String) :
    copyAt now { s := s, t := now } = { s := s, t := now } := by
  unfold copyAt
  split <;> simp_all

theorem passAdded_stamped (env : Env) (w : World) (now : time_t)
    (hc : ∀ n, w.ticks ≤ n → env.clock n = now) :
    ∀ e ∈ (passAdded env w).1, e.t = now := by
  rw [passAdded_const env w now hc]
  intro e he
  simp only [List.mem_reverse, List.mem_map] at he
  obtain ⟨x, _, rfl⟩ := he
  rfl

theorem map_copyAt_stamped (now : time_t) (l : List StringTimeNode)
    (h : ∀ e ∈ l, e.t = now) : l.map (copyAt now) = l := by
  rw [List.map_congr_left, List.map_id]
  intro e he
  have ht := h e he
  cases e with
  | mk s t =>
    simp only at ht
    rw [ht]
    exact copyAt_stamped now s

theorem passMerged_const (env : Env) (w : World) (now : time_t)
    (hc : ∀ n, w.ticks ≤ n → env.clock n = now) :
    (passMerged env w).1 =
      if (passAdd env w).1 then (passAdded env w).1.reverse ++ w.g_allTypoExceptions
      else w.g_allTypoExceptions := by
  unfold passMerged
  split
  · rw [listAdd_const env.clock w.ticks now hc _ _ _ (passExpired_ticks_le env w),
      map_copyAt_stamped now _ (passAdded_stamped env w now hc)]
  · rfl

theorem passRebuilt_const (env : Env) (w : World) (now : time_t)
    (hc : ∀ n, w.ticks ≤ n → env.clock n = now) :
    (passRebuilt env w).1 =
      if (passRemove env w).1 then
        (((passMerged env w).1.filter (fun e => !decide (now > e.t + 1209600))).map
          (copyAt now)).reverse
      else (passMerged env w).1 := by
  unfold passRebuilt
  split
  · unfold StringTimeNodeListRemoveExpired
    rw [removeExpiredLoop_const env.clock w.ticks now hc _ _ _ (passMerged_ticks_le env w)]
    simp
  · rfl

/-! ### Names without case duplicates -/

theorem noCaseDup_iff_names (l : List StringTimeNode) :
    NoCaseDup l ↔ (names l).Pairwise (fun a b => strieq a b = false) := by
  unfold NoCaseDup names
  rw [List.pairwise_map]

theorem pairwise_strieq_reverse (l : List String) :
    l.reverse.Pairwise (fun a b => strieq a b = false) ↔
      l.Pairwise (fun a b => strieq a b = false) := by
  rw [List.pairwise_reverse]
  constructor <;> intro h <;> refine h.imp ?_ <;> intro a b hab <;>
    rw [strieq_symm] <;> exact hab

theorem passAdded_absent (env : Env) (w : World) :
    ∀ a ∈ names (passAdded env w).1, ∀ e ∈ w.g_allTypoExceptions, strieq e.s a = false := by
  intro a ha
  unfold passAdded at ha
  exact ((getAdded_mem_names _ _ _ _ a).mp ha).2

theorem passMerged_names (env : Env) (w : World) :
    names (passMerged env w).1 =
      if (passAdd env w).1 then (names (passAdded env w).1).reverse ++ names w.g_allTypoExceptions
      else names w.g_allTypoExceptions := by
  unfold passMerged
  split
  · obtain ⟨pre, hp, hn⟩ := listAdd_suffix env.clock (passAdded env w).1
      w.g_allTypoExceptions (passExpired env w).2
    rw [hp, ← hn]
    simp [names]
  · rfl

theorem passMerged_suffix (env : Env) (w : World) :
    w.g_allTypoExceptions <:+ (passMerged env w).1 := by
  unfold passMerged
  split
  · obtain ⟨pre, hp, -⟩ := listAdd_suffix env.clock (passAdded env w).1
      w.g_allTypoExceptions (passExpired env w).2
    rw [hp]
    exact List.suffix_append pre _
  · exact List.suffix_refl _

theorem passRebuilt_sublist (env : Env) (w : World) :
    (passRemove env w).1 = true →
      ∃ l, l.Sublist (passMerged env w).1 ∧ names (passRebuilt env w).1 = (names l).reverse := by
  intro h
  unfold passRebuilt
  rw [if_pos h]
  unfold StringTimeNodeListRemoveExpired
  obtain ⟨l, hl, hn⟩ := removeExpiredLoop_sublist env.clock (passMerged env w).1 []
    (passMerged env w).2
  refine ⟨l, hl, ?_⟩
  rw [hn]
  simp [names]

theorem passMerged_noCaseDup (env : Env) (w : World) (h0 : NoCaseDup w.g_allTypoExceptions)
    (hadd : NoCaseDup (passAdded env w).1) : NoCaseDup (passMerged env w).1 := by
  rw [noCaseDup_iff_names] at h0 hadd ⊢
  rw [passMerged_names]
  split
  · rw [List.pairwise_append]
    refine ⟨(pairwise_strieq_reverse _).mpr hadd, h0, ?_⟩
    intro a ha b hb
    rw [List.mem_reverse] at ha
    simp only [names, List.mem_map] at hb
    obtain ⟨e, he, rfl⟩ := hb
    rw [strieq_symm]
    exact passAdded_absent env w a ha e he
  · exact h0

theorem passRebuilt_noCaseDup (env : Env) (w : World) (h0 : NoCaseDup w.g_allTypoExceptions)
    (hadd : NoCaseDup (passAdded env w).1) : NoCaseDup (passRebuilt env w).1 := by
  have hm := passMerged_noCaseDup env w h0 hadd
  by_cases hr : (passRemove env w).1 = true
  · obtain ⟨l, hl, hn⟩ := passRebuilt_sublist env w hr
    rw [noCaseDup_iff_names] at hm ⊢
    rw [hn, pairwise_strieq_reverse]
    exact hm.sublist (hl.map _)
  · unfold passRebuilt
    rw [if_neg hr]
    exact hm

/-! ### The submissions -/

theorem submitAdded_true_iff (env : Env) (w : World) (added : List StringTimeNode)
    (hne : added ≠ []) :
    (SubmitAddedTypoExceptions env w added).1 = true ↔
      ∃ id, (GetNetworkId env w).1 = some id ∧
        env.http (GetNetworkId env w).2.posts.length
            (ApiCall.typoExceptionsAdd id (GetNamesAsCommaSeparatedString added))
          ≠ HttpReply.invalid ∧
        env.http (GetNetworkId env w).2.posts.length
            (ApiCall.typoExceptionsAdd id (GetNamesAsCommaSeparatedString added))
          ≠ HttpReply.noData := by
  have he : added.isEmpty = false := by
    cases added with
    | nil => exact absurd rfl hne
    | cons a l => rfl
  unfold SubmitAddedTypoExceptions
  rw [he]
  simp only [Bool.false_eq_true, if_false]
  split
  · rename_i h; simp [h]
  · rename_i id h
    simp only [h, Option.some.injEq, exists_eq_left', HttpPost]
    cases env.http (GetNetworkId env w).2.posts.length
      (ApiCall.typoExceptionsAdd id (GetNamesAsCommaSeparatedString added)) <;>
      simp [submitResult]

theorem submitExpired_true_iff (env : Env) (w : World) (expired : List StringTimeNode)
    (hne : expired ≠ []) :
    (SubmitExpiredTypoExceptions env w expired).1 = true ↔
      ∃ id, (GetNetworkId env w).1 = some id ∧
        env.http (GetNetworkId env w).2.posts.length
            (ApiCall.typoExceptionsRemove id (GetNamesAsCommaSeparatedString expired))
          ≠ HttpReply.invalid ∧
        env.http (GetNetworkId env w).2.posts.length
            (ApiCall.typoExceptionsRemove id (GetNamesAsCommaSeparatedString expired))
          ≠ HttpReply.noData := by
  have he : expired.isEmpty = false := by
    cases expired with
    | nil => exact absurd rfl hne
    | cons a l => rfl
  unfold SubmitExpiredTypoExceptions
  rw [he]
  simp only [Bool.false_eq_true, if_false]
  split
  · rename_i h; simp [h]
  · rename_i id h
    simp only [h, Option.some.injEq, exists_eq_left', HttpPost]
    cases env.http (GetNetworkId env w).2.posts.length
      (ApiCall.typoExceptionsRemove id (GetNamesAsCommaSeparatedString expired)) <;>
      simp [submitResult]

/-! ### Which names a rebuild can hold -/

theorem passAdded_not_in_list (env : Env) (w : World) :
    ∀ a ∈ (passAdded env w).1, a.s ∉ names w.g_allTypoExceptions := by
  intro a ha hmem
  simp only [names, List.mem_map] at hmem
  obtain ⟨e, he, hes⟩ := hmem
  have h1 := passAdded_absent env w a.s (List.mem_map_of_mem _ ha) e he
  rw [hes, strieq_refl] at h1
  exact Bool.noConfusion h1

/-! ### The names of the snapshot do not depend on the clock -/

theorem addToListIfServer_names (clock1 clock2 : Nat → time_t) (k1 k2 : Nat)
    (head1 head2 : List StringTimeNode) (nr : NETRESOURCE) (h : names head1 = names head2) :
    names (AddToListIfServer clock1 k1 head1 nr).1 =
      names (AddToListIfServer clock2 k2 head2 nr).1 := by
  unfold AddToListIfServer
  split
  · split
    · split
      · simp only [names, StringTimeNodeAllocAndInsert, StringTimeNodeInsert, List.map_cons,
          alloc_name]
        unfold names at h
        rw [h]
      · exact h
    · exact h
  · exact h

theorem getNetworkServersEnum_names (clock1 clock2 : Nat → time_t) :
    ∀ (rs : List NETRESOURCE) (head1 head2 : List StringTimeNode) (k1 k2 : Nat),
      names head1 = names head2 →
      names (GetNetworkServersEnum clock1 rs head1 k1).1 =
        names (GetNetworkServersEnum clock2 rs head2 k2).1 := by
  intro rs
  induction rs with
  | nil => intro head1 head2 k1 k2 h; exact h
  | cons nr rest ih =>
    intro head1 head2 k1 k2 h
    unfold GetNetworkServersEnum
    exact ih _ _ _ _ (addToListIfServer_names clock1 clock2 k1 k2 head1 head2 nr h)

theorem getDNSPrefixes_names (clock1 clock2 : Nat → time_t) :
    ∀ (ads : List (Option String)) (head1 head2 : List StringTimeNode) (k1 k2 : Nat),
      names head1 = names head2 →
      names (GetDNSPrefixes clock1 ads head1 k1).1 =
        names (GetDNSPrefixes clock2 ads head2 k2).1 := by
  intro ads
  induction ads with
  | nil => intro head1 head2 k1 k2 h; exact h
  | cons a rest ih =>
    intro head1 head2 k1 k2 h
    cases a with
    | none => unfold GetDNSPrefixes; exact ih _ _ _ _ h
    | some dnsSuffix =>
      unfold GetDNSPrefixes
      split
      · apply ih
        simp only [names, StringTimeNodeAllocAndInsert, StringTimeNodeInsert, List.map_cons,
          alloc_name]
        unfold names at h
        rw [h]
      · exact ih _ _ _ _ h

theorem passSnapshot_names (env : Env) (w1 w2 : World) :
    names (passSnapshot env w1).1 = names (passSnapshot env w2).1 := by
  unfold passSnapshot GetTypoExceptions
  exact getNetworkServersEnum_names _ _ _ _ _ _ _
    (getDNSPrefixes_names _ _ _ _ _ _ _ rfl)

theorem passSnapshot_length (env : Env) (w1 w2 : World) :
    (passSnapshot env w1).1.length = (passSnapshot env w2).1.length := by
  have h := congrArg List.length (passSnapshot_names env w1 w2)
  simpa [names] using h

/-! ### A second pass -/

theorem getAdded_nil_of_exists (clock : Nat → time_t) (k : Nat)
    (all current : List StringTimeNode)
    (h : ∀ c ∈ current, StringTimeNodeExists all c.s = true) :
    (StringTimeNodeListGetAdded clock k all current).1 = [] := by
  have hn := getAddedLoop_names clock all current [] k
  have hf : current.filter (fun e => !StringTimeNodeExists all e.s) = [] := by
    rw [List.filter_eq_nil_iff]
    intro c hc
    simp [h c hc]
  rw [hf] at hn
  unfold StringTimeNodeListGetAdded
  simpa [names] using hn

theorem passRebuilt_keeps_snapshot (env : Env) (w : World) (now : time_t)
    (hc : ∀ n, w.ticks ≤ n → env.clock n = now)
    (hadd : (passAdd env w).1 = true ∨ (passAdded env w).1 = [])
    (hkeep : ∀ c ∈ (passSnapshot env w).1, ∀ e ∈ (passExpired env w).1,
      strieq e.s c.s = false) :
    ∀ c ∈ (passSnapshot env w).1, StringTimeNodeExists (passRebuilt env w).1 c.s = true := by
  intro c hc1
  rw [exists_iff]
  have key : ∃ e ∈ (passMerged env w).1, strieq e.s c.s = true ∧ ¬ now > e.t + 1209600 := by
    by_cases hex : StringTimeNodeExists w.g_allTypoExceptions c.s = true
    · obtain ⟨e, he, hs⟩ := (exists_iff _ _).mp hex
      refine ⟨e, (passMerged_suffix env w).subset he, hs, ?_⟩
      intro hexp
      have hmem : copyAt now e ∈ (passExpired env w).1 := by
        rw [passExpired_const env w now hc]
        simp only [List.mem_reverse, List.mem_map, List.mem_filter, decide_eq_true_eq]
        exact ⟨e, ⟨he, hexp⟩, rfl⟩
      have hk := hkeep c hc1 (copyAt now e) hmem
      have hname : (copyAt now e).s = e.s := rfl
      rw [hname, hs] at hk
      exact Bool.noConfusion hk
    · have hfalse : StringTimeNodeExists w.g_allTypoExceptions c.s = false := by
        simpa using hex
      have hca : c.s ∈ names (passAdded env w).1 := by
        unfold passAdded
        exact (getAdded_mem_names _ _ _ _ c.s).mpr
          ⟨List.mem_map_of_mem _ hc1, (exists_false_iff _ _).mp hfalse⟩
      obtain ⟨a, ha, has⟩ := List.mem_map.mp hca
      have haok : (passAdd env w).1 = true := hadd.resolve_right (List.ne_nil_of_mem ha)
      have hat : a.t = now := passAdded_stamped env w now hc a ha
      refine ⟨a, ?_, ?_, ?_⟩
      · rw [passMerged_const env w now hc, if_pos haok]
        exact List.mem_append_left _ (List.mem_reverse.mpr ha)
      · rw [has]; exact strieq_refl _
      · rw [hat]; linarith
  obtain ⟨e, hem, hs, hne⟩ := key
  by_cases hr : (passRemove env w).1 = true
  · rw [passRebuilt_const env w now hc, if_pos hr]
    refine ⟨copyAt now e, ?_, hs⟩
    simp only [List.mem_reverse, List.mem_map, List.mem_filter, Bool.not_eq_true',
      decide_eq_false_iff_not]
    exact ⟨e, ⟨hem, hne⟩, rfl⟩
  · unfold passRebuilt
    rw [if_neg hr]
    exact ⟨e, hem, hs⟩

/-! ### Failing network-id resolution -/

theorem getNetworkId_fails (env : Env) (w : World) (hid : w.g_pref_network_id = none)
    (hfail : ∀ n doc, env.http n ApiCall.networkGet = HttpReply.json doc →
      doc.statusSuccess = false ∨ doc.networkId = none) :
    (GetNetworkId env w).1 = none ∧ (GetNetworkId env w).2.g_pref_network_id = none := by
  have hapi : (GetNetworkIdApi env w).1 = none := by
    unfold GetNetworkIdApi
    split
    · rfl
    · rfl
    · rfl
    · rename_i doc hdoc
      rcases hfail w.posts.length doc hdoc with h | h
      · simp [h]
      · split
        · rfl
        · exact h
  unfold GetNetworkId
  rw [hid]
  simp only [hapi]
  rw [getNetworkIdApi_world]
  exact ⟨trivial, hid⟩

theorem submitExpired_fails (env : Env) (w : World) (l : List StringTimeNode)
    (hid : w.g_pref_network_id = none)
    (hfail : ∀ n doc, env.http n ApiCall.networkGet = HttpReply.json doc →
      doc.statusSuccess = false ∨ doc.networkId = none) :
    (SubmitExpiredTypoExceptions env w l).1 = false ∧
      (SubmitExpiredTypoExceptions env w l).2.g_pref_network_id = none := by
  obtain ⟨h1, h2⟩ := getNetworkId_fails env w hid hfail
  unfold SubmitExpiredTypoExceptions
  split
  · exact ⟨rfl, hid⟩
  · simp only [h1]
    exact ⟨trivial, h2⟩

theorem submitAdded_fails (env : Env) (w : World) (l : List StringTimeNode)
    (hid : w.g_pref_network_id = none)
    (hfail : ∀ n doc, env.http n ApiCall.networkGet = HttpReply.json doc →
      doc.statusSuccess = false ∨ doc.networkId = none) :
    (SubmitAddedTypoExceptions env w l).1 = false ∧
      (SubmitAddedTypoExceptions env w l).2.g_pref_network_id = none := by
  obtain ⟨h1, h2⟩ := getNetworkId_fails env w hid hfail
  unfold SubmitAddedTypoExceptions
  split
  · exact ⟨rfl, hid⟩
  · simp only [h1]
    exact ⟨trivial, h2⟩

/-! ### Counting the added list -/

theorem getAdded_length (clock : Nat → time_t) (k : Nat) (all current : List StringTimeNode) :
    (StringTimeNodeListGetAdded clock k all current).1.length =
      (current.filter (fun e => !StringTimeNodeExists all e.s)).length := by
  have h := congrArg List.length (getAddedLoop_names clock all current [] k)
  unfold StringTimeNodeListGetAdded
  simpa [names] using h

theorem count_names_filter (all : List StringTimeNode) (name : String)
    (habs : StringTimeNodeExists all name = false) :
    ∀ current : List StringTimeNode,
      (names (current.filter (fun e => !StringTimeNodeExists all e.s))).count name =
        (names current).count name := by
  intro current
  induction current with
  | nil => rfl
  | cons c rest ih =>
    unfold names at ih ⊢
    by_cases hc : StringTimeNodeExists all c.s = true
    · have hne : ¬ c.s = name := by
        intro h; rw [h, habs] at hc; exact Bool.noConfusion hc
      have hne2 : (c.s == name) = false := by simpa using hne
      simp only [List.filter_cons, hc, Bool.not_true, Bool.false_eq_true, if_false,
        List.map_cons, List.count_cons, hne2, ih, add_zero]
    · simp only [Bool.not_eq_true] at hc
      simp only [List.filter_cons, hc, Bool.not_false, if_true, List.map_cons,
        List.count_cons, ih]

theorem passAdded_length_le (env : Env) (w : World) :
    (passAdded env w).1.length ≤ (passSnapshot env w).1.length := by
  unfold passAdded
  rw [getAdded_length]
  exact List.length_filter_le _ _

theorem getExpired_names_subset (clock : Nat → time_t) (k : Nat) (all : List StringTimeNode) :
    ∀ e ∈ (StringTimeNodeListGetExpired clock k all).1, ∃ x ∈ all, x.s = e.s := by
  intro e he
  obtain ⟨l, hl, hn⟩ := getExpiredLoop_sublist clock all [] k
  have hmem : e.s ∈ names (StringTimeNodeListGetExpired clock k all).1 :=
    List.mem_map_of_mem _ he
  unfold StringTimeNodeListGetExpired at hmem
  rw [hn] at hmem
  simp only [names, List.map_nil, List.append_nil, List.mem_reverse, List.mem_map] at hmem
  obtain ⟨x, hx, hxs⟩ := hmem
  exact ⟨x, hl.subset hx, hxs⟩

theorem getAdded_getExpired_disjoint (clock : Nat → time_t) (k1 k2 : Nat)
    (all current : List StringTimeNode) :
    ∀ a ∈ (StringTimeNodeListGetAdded clock k1 all current).1,
      ∀ e ∈ (StringTimeNodeListGetExpired clock k2 all).1, strieq a.s e.s = false := by
  intro a ha e he
  obtain ⟨x, hx, hxs⟩ := getExpired_names_subset clock k2 all e he
  have habs := ((getAdded_mem_names clock k1 all current a.s).mp
    (List.mem_map_of_mem _ ha)).2 x hx
  rw [strieq_symm, ← hxs]
  exact habs

/-! ### The cached network id -/

theorem getNetworkId_cached (env : Env) (w : World) (id : String)
    (h : w.g_pref_network_id = some id) : GetNetworkId env w = (some id, w) := by
  unfold GetNetworkId
  rw [h]

theorem submitExpired_keeps_id (env : Env) (w : World) (l : List StringTimeNode) (id : String)
    (h : w.g_pref_network_id = some id) :
    (SubmitExpiredTypoExceptions env w l).2.g_pref_network_id = some id := by
  unfold SubmitExpiredTypoExceptions
  rw [getNetworkId_cached env w id h]
  split
  · exact h
  · exact h

theorem submitAdded_keeps_id (env : Env) (w : World) (l : List StringTimeNode) (id : String)
    (h : w.g_pref_network_id = some id) :
    (SubmitAddedTypoExceptions env w l).2.g_pref_network_id = some id := by
  unfold SubmitAddedTypoExceptions
  rw [getNetworkId_cached env w id h]
  split
  · exact h
  · exact h

theorem pass_keeps_id (env : Env) (w : World) (id : String)
    (h : w.g_pref_network_id = some id) :
    (SubmitTypoExceptionsThread env w).world.g_pref_network_id = some id := by
  by_cases hcap : 25 < (passSnapshot env w).1.length
  · rw [pass_capped env w hcap]
    exact h
  · rw [pass_uncapped env w (not_lt.mp hcap)]
    exact submitAdded_keeps_id env _ _ id (submitExpired_keeps_id env _ _ id h)

/-! ### The comma separated names -/

theorem namesLoop_eq_go (rest : List StringTimeNode) :
    ∀ (c : StringTimeNode) (acc : String),
      GetNamesAsCommaSeparatedStringLoop (c :: rest) acc =
        String.intercalate.go (acc ++ c.s) "," (names rest) := by
  induction rest with
  | nil =>
    intro c acc
    simp [GetNamesAsCommaSeparatedStringLoop, names, String.intercalate.go]
  | cons d rest ih =>
    intro c acc
    unfold GetNamesAsCommaSeparatedStringLoop
    simp only [List.isEmpty_cons, Bool.false_eq_true, if_false]
    rw [ih]
    simp [names, String.intercalate.go]

theorem namesLoop_count :
    ∀ (head : List StringTimeNode) (acc : String),
      (∀ e ∈ head, ',' ∉ e.s.data) →
      (GetNamesAsCommaSeparatedStringLoop head acc).data.count ',' =
        acc.data.count ',' + (head.length - 1) := by
  intro head
  induction head with
  | nil => intro acc _; simp [GetNamesAsCommaSeparatedStringLoop]
  | cons c rest ih =>
    intro acc h
    have hc : List.count ',' c.s.data = 0 :=
      List.count_eq_zero.mpr (h c (List.mem_cons_self _ _))
    have hrest : ∀ e ∈ rest, ',' ∉ e.s.data := fun e he => h e (List.mem_cons_of_mem _ he)
    unfold GetNamesAsCommaSeparatedStringLoop
    cases rest with
    | nil =>
      simp [GetNamesAsCommaSeparatedStringLoop, hc]
    | cons d rest2 =>
      simp only [List.isEmpty_cons, Bool.false_eq_true, if_false]
      rw [ih _ hrest]
      have hcomma : List.count ',' ",".data = 1 := by decide
      simp only [String.data_append, List.count_append, hc, hcomma, List.length_cons]
      omega

theorem namesLoop_prefix :
    ∀ (head : List StringTimeNode) (acc : String),
      ∃ x, (GetNamesAsCommaSeparatedStringLoop head acc).data = acc.data ++ x := by
  intro head
  induction head with
  | nil => intro acc; exact ⟨[], by simp [GetNamesAsCommaSeparatedStringLoop]⟩
  | cons c rest ih =>
    intro acc
    unfold GetNamesAsCommaSeparatedStringLoop
    split
    · obtain ⟨x, hx⟩ := ih (acc ++ c.s)
      exact ⟨c.s.data ++ x, by rw [hx]; simp⟩
    · obtain ⟨x, hx⟩ := ih ((acc ++ c.s) ++ ",")
      exact ⟨c.s.data ++ (",".data ++ x), by rw [hx]; simp⟩

theorem namesLoop_suffix :
    ∀ (head : List StringTimeNode) (acc : String) (e : StringTimeNode),
      head.getLast? = some e →
      ∃ x, (GetNamesAsCommaSeparatedStringLoop head acc).data = x ++ e.s.data := by
  intro head
  induction head with
  | nil => intro acc e h; simp at h
  | cons c rest ih =>
    intro acc e h
    unfold GetNamesAsCommaSeparatedStringLoop
    cases rest with
    | nil =>
      simp only [List.getLast?_singleton, Option.some.injEq] at h
      rw [← h]
      exact ⟨acc.data, by simp [GetNamesAsCommaSeparatedStringLoop]⟩
    | cons d rest2 =>
      simp only [List.isEmpty_cons, Bool.false_eq_true, if_false]
      rw [List.getLast?_cons_cons] at h
      exact ih _ e h

/-! ### The rebuild -/

theorem filter_not_expired_eq (now : time_t) (l : List StringTimeNode) :
    l.filter (fun e => !decide (now > e.t + 1209600)) =
      l.filter (fun e => decide (now ≤ e.t + 1209600)) := by
  apply List.filter_congr
  intro e _
  by_cases h : now > e.t + 1209600
  · have h2 : ¬ now ≤ e.t + 1209600 := not_le.mpr h
    simp [h, h2]
  · have h2 : now ≤ e.t + 1209600 := not_lt.mp h
    simp [h, h2]

theorem removeExpired_const (clock : Nat → time_t) (k : Nat) (now : time_t)
    (head : List StringTimeNode) (hc : ∀ n, k ≤ n → clock n = now) :
    (StringTimeNodeListRemoveExpired clock k head).1 =
      ((head.filter (fun e => decide (now ≤ e.t + 1209600))).map (copyAt now)).reverse := by
  unfold StringTimeNodeListRemoveExpired
  rw [removeExpiredLoop_const clock k now hc head [] k (le_refl k), filter_not_expired_eq]
  simp

theorem names_map_copyAt (now : time_t) (l : List StringTimeNode) :
    names (l.map (copyAt now)) = names l := by
  simp [names, copyAt]

theorem copyAt_not_expired (now : time_t) (e : StringTimeNode)
    (h : now ≤ e.t + 1209600) : ¬ now > (copyAt now e).t + 1209600 := by
  unfold copyAt
  by_cases h0 : e.t = 0
  · simp only [h0, if_true]; linarith
  · simp only [h0, if_false]; linarith

/-! ### Copies keep the name and a non-zero timestamp -/

theorem alloc_copyOf (clock : Nat → time_t) (k : Nat) (e : StringTimeNode) :
    CopyOf (StringTimeNodeAlloc clock k e.s e.t).1 e := by
  unfold CopyOf StringTimeNodeAlloc
  by_cases h : e.t = 0
  · simp [h]
  · simp [h]

theorem removeExpiredLoop_mem (clock : Nat → time_t) :
    ∀ (head newHead : List StringTimeNode) (k : Nat),
      ∀ x ∈ (StringTimeNodeListRemoveExpiredLoop clock head newHead k).1,
        x ∈ newHead ∨ ∃ e ∈ head, CopyOf x e := by
  intro head
  induction head with
  | nil =>
    intro acc k x hx
    exact Or.inl hx
  | cons c rest ih =>
    intro acc k x hx
    unfold StringTimeNodeListRemoveExpiredLoop at hx
    split at hx
    · rcases ih _ _ x hx with h | ⟨e, he, hc⟩
      · simp only [StringTimeNodeAllocAndInsert, StringTimeNodeInsert, List.mem_cons] at h
        rcases h with h | h
        · right
          exact ⟨c, List.mem_cons_self _ _, by rw [h]; exact alloc_copyOf clock _ c⟩
        · exact Or.inl h
      · exact Or.inr ⟨e, List.mem_cons_of_mem _ he, hc⟩
    · rcases ih _ _ x hx with h | ⟨e, he, hc⟩
      · exact Or.inl h
      · exact Or.inr ⟨e, List.mem_cons_of_mem _ he, hc⟩

theorem passMerged_mem (env : Env) (w : World) :
    ∀ x ∈ (passMerged env w).1,
      x ∈ w.g_allTypoExceptions ∨ x.s ∈ names (passAdded env w).1 := by
  intro x hx
  unfold passMerged at hx
  split at hx
  · obtain ⟨pre, hp, hn⟩ := listAdd_suffix env.clock (passAdded env w).1
      w.g_allTypoExceptions (passExpired env w).2
    rw [hp, List.mem_append] at hx
    rcases hx with h | h
    · right
      have h2 : x.s ∈ names pre := List.mem_map_of_mem _ h
      rw [hn, List.mem_reverse] at h2
      exact h2
    · exact Or.inl h
  · exact Or.inl hx

theorem passRebuilt_mem (env : Env) (w : World) :
    ∀ x ∈ (passRebuilt env w).1, ∃ e ∈ (passMerged env w).1, CopyOf x e := by
  intro x hx
  unfold passRebuilt at hx
  split at hx
  · unfold StringTimeNodeListRemoveExpired at hx
    rcases removeExpiredLoop_mem env.clock _ _ _ x hx with h | h
    · exact absurd h (List.not_mem_nil x)
    · exact h
  · exact ⟨x, hx, rfl, fun _ => rfl⟩

theorem passRebuilt_old_names (env : Env) (w : World) :
    ∀ x ∈ (passRebuilt env w).1,
      (∃ e ∈ w.g_allTypoExceptions, strieq e.s x.s = true) →
        ∃ e ∈ w.g_allTypoExceptions, CopyOf x e := by
  intro x hx hold
  obtain ⟨e, he, hc⟩ := passRebuilt_mem env w x hx
  rcases passMerged_mem env w e he with h | h
  · exact ⟨e, h, hc⟩
  · obtain ⟨e0, he0, hs⟩ := hold
    have habs := passAdded_absent env w e.s h e0 he0
    rw [← hc.1, hs] at habs
    exact Bool.noConfusion habs

theorem pass_world_list (env : Env) (w : World) :
    (SubmitTypoExceptionsThread env w).world.g_allTypoExceptions =
      if 25 < (passSnapshot env w).1.length then w.g_allTypoExceptions
      else (passRebuilt env w).1 := by
  by_cases hcap : 25 < (passSnapshot env w).1.length
  · rw [pass_capped env w hcap, if_pos hcap]
  · rw [pass_uncapped env w (not_lt.mp hcap), if_neg hcap]

theorem pass_flag_cleared (env : Env) (w : World) :
    (SubmitTypoExceptionsThread env w).world.g_inTypoExceptionThread = false := by
  by_cases hcap : 25 < (passSnapshot env w).1.length
  · rw [pass_capped env w hcap]
  · rw [pass_uncapped env w (not_lt.mp hcap)]

/-! ### One pass at a time -/

theorem async_world (env : Env) (w : World) : (SubmitTypoExceptionsAsync env w).2 = w := by
  unfold SubmitTypoExceptionsAsync
  split
  · rfl
  · split <;> rfl

theorem async_false_of_flag (env : Env) (w : World) (h : w.g_inTypoExceptionThread = true) :
    (SubmitTypoExceptionsAsync env w).1 = false := by
  unfold SubmitTypoExceptionsAsync
  rw [h]
  split <;> rfl

theorem step_keeps_one (env : Env) (sys : System) (ev : Event)
    (hev : ev = Event.trigger → sys.created = 0)
    (h1 : inFlight sys ≤ 1)
    (h2 : sys.running = 1 → sys.world.g_inTypoExceptionThread = true) :
    inFlight (step env sys ev) ≤ 1 ∧
      ((step env sys ev).running = 1 →
        (step env sys ev).world.g_inTypoExceptionThread = true) := by
  unfold inFlight at h1 ⊢
  cases ev with
  | trigger =>
    have hc := hev rfl
    show inFlight _ ≤ 1 ∧ _
    unfold inFlight
    simp only [step, async_world]
    by_cases ha : (SubmitTypoExceptionsAsync env sys.world).1 = true
    · rw [if_pos ha]
      have hr0 : sys.running = 0 := by
        by_contra hne
        have hr1 : sys.running = 1 := by omega
        rw [async_false_of_flag env sys.world (h2 hr1)] at ha
        exact Bool.noConfusion ha
      simp only [hc, hr0]
      exact ⟨by omega, fun h => by omega⟩
    · rw [if_neg ha]
      exact ⟨h1, h2⟩
  | start =>
    simp only [step]
    by_cases hc : sys.created = 0
    · rw [if_pos hc]
      exact ⟨h1, h2⟩
    · rw [if_neg hc]
      simp only
      exact ⟨by omega, fun _ => trivial⟩
  | finish =>
    simp only [step]
    by_cases hr : sys.running = 0
    · rw [if_pos hr]
      exact ⟨h1, h2⟩
    · rw [if_neg hr]
      simp only
      exact ⟨by omega, fun h => by omega⟩

theorem run_keeps_one (env : Env) :
    ∀ (evs : List Event) (sys : System), PromptStart env sys evs →
      inFlight sys ≤ 1 → (sys.running = 1 → sys.world.g_inTypoExceptionThread = true) →
      inFlight (run env sys evs) ≤ 1 := by
  intro evs
  induction evs with
  | nil => intro sys _ h1 _; exact h1
  | cons ev rest ih =>
    intro sys hp h1 h2
    unfold run
    obtain ⟨h3, h4⟩ := step_keeps_one env sys ev hp.1 h1 h2
    exact ih _ hp.2 h3 h4

/-! ### No stored timestamp is zero -/

theorem alloc_ne_zero (clock : Nat → time_t) (hclock : ∀ n, clock n ≠ 0) (k : Nat)
    (s : String) (t : time_t) : (StringTimeNodeAlloc clock k s t).1.t ≠ 0 := by
  unfold StringTimeNodeAlloc time
  by_cases h : t = 0
  · simp only [h, if_true]
    exact hclock k
  · simp only [h, if_false]
    exact h

theorem listAdd_no_zero (clock : Nat → time_t) (hclock : ∀ n, clock n ≠ 0) :
    ∀ (toAdd head : List StringTimeNode) (k : Nat), (∀ e ∈ head, e.t ≠ 0) →
      ∀ x ∈ (StringTimeNodeListAdd clock toAdd head k).1, x.t ≠ 0 := by
  intro toAdd
  induction toAdd with
  | nil => intro head k h x hx; exact h x hx
  | cons c rest ih =>
    intro head k h x hx
    unfold StringTimeNodeListAdd at hx
    refine ih _ _ ?_ x hx
    intro e he
    simp only [StringTimeNodeAllocAndInsert, StringTimeNodeInsert, List.mem_cons] at he
    rcases he with he | he
    · rw [he]; exact alloc_ne_zero clock hclock _ _ _
    · exact h e he

theorem removeExpiredLoop_no_zero (clock : Nat → time_t) (hclock : ∀ n, clock n ≠ 0) :
    ∀ (head newHead : List StringTimeNode) (k : Nat), (∀ e ∈ newHead, e.t ≠ 0) →
      ∀ x ∈ (StringTimeNodeListRemoveExpiredLoop clock head newHead k).1, x.t ≠ 0 := by
  intro head
  induction head with
  | nil => intro acc k h x hx; exact h x hx
  | cons c rest ih =>
    intro acc k h x hx
    unfold StringTimeNodeListRemoveExpiredLoop at hx
    split at hx
    · refine ih _ _ ?_ x hx
      intro e he
      simp only [StringTimeNodeAllocAndInsert, StringTimeNodeInsert, List.mem_cons] at he
      rcases he with he | he
      · rw [he]; exact alloc_ne_zero clock hclock _ _ _
      · exact h e he
    · exact ih _ _ h x hx

theorem passRebuilt_no_zero (env : Env) (w : World) (hclock : ∀ n, env.clock n ≠ 0)
    (h0 : ∀ e ∈ w.g_allTypoExceptions, e.t ≠ 0) :
    ∀ x ∈ (passRebuilt env w).1, x.t ≠ 0 := by
  have hm : ∀ x ∈ (passMerged env w).1, x.t ≠ 0 := by
    intro x hx
    unfold passMerged at hx
    split at hx
    · exact listAdd_no_zero env.clock hclock _ _ _ h0 x hx
    · exact h0 x hx
  intro x hx
  unfold passRebuilt at hx
  split at hx
  · unfold StringTimeNodeListRemoveExpired at hx
    exact removeExpiredLoop_no_zero env.clock hclock _ _ _
      (fun e he => absurd he (List.not_mem_nil e)) x hx
  · exact hm x hx

theorem pass_no_zero (env : Env) (w : World) (hclock : ∀ n, env.clock n ≠ 0)
    (h0 : ∀ e ∈ w.g_allTypoExceptions, e.t ≠ 0) :
    ∀ x ∈ (SubmitTypoExceptionsThread env w).world.g_allTypoExceptions, x.t ≠ 0 := by
  intro x hx
  rw [pass_world_list] at hx
  split at hx
  · exact h0 x hx
  · exact passRebuilt_no_zero env w hclock h0 x hx

theorem runPasses_no_zero :
    ∀ (envs : List Env) (w : World), (∀ env ∈ envs, ∀ n, env.clock n ≠ 0) →
      (∀ e ∈ w.g_allTypoExceptions, e.t ≠ 0) →
      ∀ x ∈ (runPasses envs w).g_allTypoExceptions, x.t ≠ 0 := by
  intro envs
  induction envs with
  | nil => intro w _ h0 x hx; exact h0 x hx
  | cons env rest ih =>
    intro w hclock h0 x hx
    unfold runPasses at hx
    exact ih _ (fun e he => hclock e (List.mem_cons_of_mem _ he))
      (pass_no_zero env w (hclock env (List.mem_cons_self _ _)) h0) x hx

theorem pass_old_names_copy (env : Env) (w : World) :
    ∀ x ∈ (SubmitTypoExceptionsThread env w).world.g_allTypoExceptions,
      (∃ e ∈ w.g_allTypoExceptions, strieq e.s x.s = true) →
        ∃ e ∈ w.g_allTypoExceptions, x.s = e.s ∧ (e.t ≠ 0 → x.t = e.t) := by
  intro x hx hold
  rw [pass_world_list] at hx
  split at hx
  · exact ⟨x, hx, rfl, fun _ => rfl⟩
  · exact passRebuilt_old_names env w x hx hold

/-- Why the clock is required never to read 0. `StringTimeNodeAlloc` takes the
timestamp 0 for "not given": were `time()` to read 0 while `a` is stored and to
run backwards between the computation of the expired list and the rebuild, the
rebuild would keep `a` and stamp it anew. -/
theorem zero_reading_is_read_again :
    (SubmitTypoExceptionsThread envEpoch worldStart).world.g_allTypoExceptions =
      [{ s := "a", t := 0 }] ∧
    (SubmitTypoExceptionsThread envEpoch
      (SubmitTypoExceptionsThread envEpoch worldStart).world).world.g_allTypoExceptions =
        [{ s := "a", t := 1000000 }] := by
  decide

/-! ## The claims -/

/-- C1: a name occurs in `StringTimeNodeListGetAdded(all, current)` if and only
if it occurs in `current` and no entry of `all` has a name equal to it ignoring
case; this holds whatever the clock reads. -/
theorem getAdded_name_iff (clock : Nat → time_t) (k : Nat)
    (all current : List StringTimeNode) (name : String) :
    name ∈ names (StringTimeNodeListGetAdded clock k all current).1 ↔
      name ∈ names current ∧ ∀ e ∈ all, strieq e.s name = false := by
  unfold StringTimeNodeListGetAdded
  rw [getAddedLoop_names]
  simp only [names, List.map_nil, List.append_nil, List.mem_reverse, List.mem_map,
    List.mem_filter, Bool.not_eq_true']
  constructor
  · rintro ⟨e, ⟨he, hx⟩, rfl⟩
    exact ⟨⟨e, he, rfl⟩, (exists_false_iff all e.s).mp hx⟩
  · rintro ⟨⟨e, he, rfl⟩, hx⟩
    exact ⟨e, ⟨he, (exists_false_iff all e.s).mpr hx⟩, rfl⟩

/-- C2: when the clock reads `now`, `StringTimeNodeListGetExpired` returns exactly
the entries whose timestamp `t` satisfies `now > t + 1209600`: the returned list
is the list of those entries (newest insertion first, a zero timestamp read
again from the clock), so it has their names with their multiplicity, and it is
that very sublist reversed when no timestamp is zero; an entry observed 15 days
before `now` is reported and one observed 13 days before `now` is not. -/
theorem getExpired_exact (clock : Nat → time_t) (k : Nat) (now : time_t)
    (head : List StringTimeNode) (hc : ∀ n, k ≤ n → clock n = now) :
    (StringTimeNodeListGetExpired clock k head).1 =
        ((head.filter (fun e => decide (now > e.t + 1209600))).map (copyAt now)).reverse ∧
    names (StringTimeNodeListGetExpired clock k head).1 =
        (names (head.filter (fun e => decide (now > e.t + 1209600)))).reverse ∧
    ((∀ e ∈ head, e.t ≠ 0) →
      (StringTimeNodeListGetExpired clock k head).1 =
        (head.filter (fun e => decide (now > e.t + 1209600))).reverse) ∧
    (∀ e ∈ head, e.t = now - 15 * 86400 →
      e.s ∈ names (StringTimeNodeListGetExpired clock k head).1) ∧
    (∀ e ∈ head, e.t = now - 13 * 86400 →
      e ∉ (StringTimeNodeListGetExpired clock k head).1) := by
  have h1 : (StringTimeNodeListGetExpired clock k head).1 =
      ((head.filter (fun e => decide (now > e.t + 1209600))).map (copyAt now)).reverse := by
    unfold StringTimeNodeListGetExpired
    rw [getExpiredLoop_const clock k now hc head [] k (le_refl k)]
    simp
  refine ⟨h1, ?_, ?_, ?_, ?_⟩
  · rw [h1]; simp [names, copyAt, List.map_reverse]
  · intro h0
    rw [h1]
    congr 1
    rw [List.map_congr_left, List.map_id]
    intro e he
    have := h0 e (List.mem_of_mem_filter he)
    simp [copyAt, this]
  · intro e he ht
    rw [h1]
    simp only [names, List.map_reverse, List.mem_reverse, List.mem_map, List.mem_filter,
      decide_eq_true_eq]
    exact ⟨copyAt now e, ⟨e, ⟨he, by rw [ht]; linarith⟩, rfl⟩, rfl⟩
  · intro e he ht
    rw [h1]
    simp only [List.mem_reverse, List.mem_map, List.mem_filter, decide_eq_true_eq]
    rintro ⟨x, ⟨_, hx⟩, hxe⟩
    by_cases h0 : x.t = 0
    · have : e.t = now := by rw [← hxe]; simp [copyAt, h0]
      rw [this] at ht; linarith
    · have : e.t = x.t := by rw [← hxe]; simp [copyAt, h0]
      rw [this] at ht; rw [ht] at hx; linarith

/-- A witness of C2 at two entries, one 15 days old and one 13 days old. -/
theorem getExpired_exact_witness :
    (∀ n, 0 ≤ n → (fun _ => (2000000 : time_t)) n = 2000000) ∧
    (StringTimeNodeListGetExpired (fun _ => 2000000) 0
      [{ s := "old", t := 704000 }, { s := "new", t := 876800 }]).1 =
        [{ s := "old", t := 704000 }] :=
  ⟨fun _ _ => rfl,
   ((getExpired_exact (fun _ => 2000000) 0 2000000
      [{ s := "old", t := 704000 }, { s := "new", t := 876800 }]
      (fun _ _ => rfl)).2.2.1 (by decide)).trans (by decide)⟩

/-- C3: on a snapshot of more than 25 entries the pass reaches neither
submission call, issues no `HttpPost`, leaves the cached network id and
`g_allTypoExceptions` as they were and sets `g_allTypoExceptionsCount` to the
length of the snapshot. -/
theorem cap_aborts_pass (env : Env) (w : World)
    (h : 25 < (SubmitTypoExceptionsThread env w).currentList.length) :
    (SubmitTypoExceptionsThread env w).expiredOk = none ∧
    (SubmitTypoExceptionsThread env w).addedOk = none ∧
    (SubmitTypoExceptionsThread env w).world.posts = w.posts ∧
    (SubmitTypoExceptionsThread env w).world.g_pref_network_id = w.g_pref_network_id ∧
    (SubmitTypoExceptionsThread env w).world.g_allTypoExceptionsCount =
      ((SubmitTypoExceptionsThread env w).currentList.length : Int) ∧
    (SubmitTypoExceptionsThread env w).world.g_allTypoExceptions = w.g_allTypoExceptions := by
  rw [pass_currentList] at h
  rw [pass_capped env w h]
  exact ⟨rfl, rfl, rfl, rfl, rfl, rfl⟩

/-- A witness of C3: 26 suffixes against a world that knows `foo`. -/
theorem cap_aborts_pass_witness :
    25 < (SubmitTypoExceptionsThread envMany worldFoo).currentList.length ∧
    (SubmitTypoExceptionsThread envMany worldFoo).world.posts = [] ∧
    (SubmitTypoExceptionsThread envMany worldFoo).world.g_allTypoExceptionsCount = 26 ∧
    (SubmitTypoExceptionsThread envMany worldFoo).world.g_allTypoExceptions =
      [{ s := "foo", t := 1500000 }] :=
  ⟨by decide,
   (cap_aborts_pass envMany worldFoo (by decide)).2.2.1,
   (cap_aborts_pass envMany worldFoo (by decide)).2.2.2.2.1.trans (by decide),
   (cap_aborts_pass envMany worldFoo (by decide)).2.2.2.2.2⟩

/-- C4: on a snapshot of at most 25 entries, with every clock reading of the
pass equal to `now`, no entry of the list expired and the add-submission
successful, the pass leaves in `g_allTypoExceptions` every entry of the old list,
unchanged and in place, below the entries of the added list, which are the
snapshot names absent from the old list stamped `now`; the count is the length
of that list. -/
theorem merge_after_add (env : Env) (w : World) (now : time_t)
    (hlen : (SubmitTypoExceptionsThread env w).currentList.length ≤ 25)
    (hc : ∀ n, w.ticks ≤ n → env.clock n = now)
    (hadd : (SubmitTypoExceptionsThread env w).addedOk = some true)
    (hexp : ∀ e ∈ w.g_allTypoExceptions, ¬ now > e.t + 1209600) :
    (SubmitTypoExceptionsThread env w).added =
      (((SubmitTypoExceptionsThread env w).currentList.filter
          (fun e => !StringTimeNodeExists w.g_allTypoExceptions e.s)).map
        (fun e => ({ s := e.s, t := now } : StringTimeNode))).reverse ∧
    (SubmitTypoExceptionsThread env w).world.g_allTypoExceptions =
      (SubmitTypoExceptionsThread env w).added.reverse ++ w.g_allTypoExceptions ∧
    (SubmitTypoExceptionsThread env w).world.g_allTypoExceptionsCount =
      (((SubmitTypoExceptionsThread env w).added.length + w.g_allTypoExceptions.length
        : Nat) : Int) := by
  rw [pass_currentList] at hlen
  rw [pass_uncapped env w hlen] at hadd ⊢
  simp only [Option.some.injEq] at hadd
  have hexpd : (passExpired env w).1 = [] := by
    rw [passExpired_const env w now hc]
    simp only [List.reverse_eq_nil_iff, List.map_eq_nil_iff, List.filter_eq_nil_iff,
      decide_eq_true_eq]
    exact hexp
  have hrem : (passRemove env w).1 = false := by
    unfold passRemove
    rw [hexpd]
    rfl
  have hreb : (passRebuilt env w).1 = (passAdded env w).1.reverse ++ w.g_allTypoExceptions := by
    rw [passRebuilt_const env w now hc, passMerged_const env w now hc, hrem, hadd]
    simp
  refine ⟨passAdded_const env w now hc, hreb, ?_⟩
  simp only [hreb, List.length_append, List.length_reverse]

/-- A witness of C4, the example of the specification: the list `foo` and the
snapshot `foo`, `bar` give the added list `bar`, the list `bar` (stamped with
the clock reading), `foo` (with its old timestamp) and the count 2. -/
theorem merge_after_add_witness :
    (SubmitTypoExceptionsThread envFooBar worldFoo).currentList.length ≤ 25 ∧
    (SubmitTypoExceptionsThread envFooBar worldFoo).addedOk = some true ∧
    (SubmitTypoExceptionsThread envFooBar worldFoo).added = [{ s := "bar", t := 2000000 }] ∧
    (SubmitTypoExceptionsThread envFooBar worldFoo).world.g_allTypoExceptions =
      [{ s := "bar", t := 2000000 }, { s := "foo", t := 1500000 }] ∧
    (SubmitTypoExceptionsThread envFooBar worldFoo).world.g_allTypoExceptionsCount = 2 :=
  ⟨by decide, by decide,
   (merge_after_add envFooBar worldFoo 2000000 (by decide) (fun _ _ => rfl) (by decide)
      (by decide)).1.trans (by decide),
   (merge_after_add envFooBar worldFoo 2000000 (by decide) (fun _ _ => rfl) (by decide)
      (by decide)).2.1.trans (by decide),
   (merge_after_add envFooBar worldFoo 2000000 (by decide) (fun _ _ => rfl) (by decide)
      (by decide)).2.2.trans (by decide)⟩

/-- C5 fails as stated: from the empty list, a snapshot that holds one suffix in
two spellings and a successful add-submission leave two entries whose names are
equal ignoring case. -/
theorem noCaseDup_broken_by_snapshot :
    NoCaseDup worldEmpty.g_allTypoExceptions ∧
    (SubmitTypoExceptionsThread envTwice worldEmpty).addedOk = some true ∧
    (SubmitTypoExceptionsThread envTwice worldEmpty).world.g_allTypoExceptions =
      [{ s := "HOST", t := 2000000 }, { s := "host", t := 2000000 }] ∧
    ¬ NoCaseDup (SubmitTypoExceptionsThread envTwice worldEmpty).world.g_allTypoExceptions := by
  decide

/-- C5, amended: when no two entries of `g_allTypoExceptions` have names equal
ignoring case and no two entries of the added list of the pass do, then after the
pass, whatever the snapshot, the clock and the outcome of the two submissions, no
two entries of `g_allTypoExceptions` have names equal ignoring case. -/
theorem noCaseDup_preserved (env : Env) (w : World)
    (h0 : NoCaseDup w.g_allTypoExceptions)
    (hadd : NoCaseDup (SubmitTypoExceptionsThread env w).added) :
    NoCaseDup (SubmitTypoExceptionsThread env w).world.g_allTypoExceptions := by
  by_cases hcap : 25 < (passSnapshot env w).1.length
  · rw [pass_capped env w hcap]
    exact h0
  · rw [pass_uncapped env w (not_lt.mp hcap)] at hadd ⊢
    exact passRebuilt_noCaseDup env w h0 hadd

/-- A witness of the amended C5: the list `foo` and the snapshot `foo`, `bar`. -/
theorem noCaseDup_preserved_witness :
    NoCaseDup worldFoo.g_allTypoExceptions ∧
    NoCaseDup (SubmitTypoExceptionsThread envFooBar worldFoo).added ∧
    NoCaseDup (SubmitTypoExceptionsThread envFooBar worldFoo).world.g_allTypoExceptions :=
  ⟨by decide, by decide, noCaseDup_preserved envFooBar worldFoo (by decide) (by decide)⟩

/-- C6 fails as stated: with a cached network id and a post that succeeds in
transport, a reply that reports a non-success status, and one that cannot be
parsed, make both submission functions return success. -/
theorem submit_ignores_api_status :
    envBadStatus.http 0 (ApiCall.typoExceptionsAdd "n1" "bar") =
      HttpReply.json { statusSuccess := false, networkId := none } ∧
    (SubmitAddedTypoExceptions envBadStatus worldEmpty [{ s := "bar", t := 2000000 }]).1
      = true ∧
    (SubmitExpiredTypoExceptions envBadStatus worldEmpty [{ s := "bar", t := 700000 }]).1
      = true ∧
    (SubmitAddedTypoExceptions { envBadStatus with http := fun _ _ => HttpReply.unparsable }
      worldEmpty [{ s := "bar", t := 2000000 }]).1 = true ∧
    (SubmitExpiredTypoExceptions { envBadStatus with http := fun _ _ => HttpReply.unparsable }
      worldEmpty [{ s := "bar", t := 700000 }]).1 = true := by
  decide

/-- C6, amended: for a non-empty list, `SubmitAddedTypoExceptions` and
`SubmitExpiredTypoExceptions` return success exactly when the network id is
resolved and the post yields a valid result that has data; whether the data
parses and which status it reports has no part in the result. -/
theorem submit_success_iff_transport (env : Env) (w : World) (l : List StringTimeNode)
    (hne : l ≠ []) :
    ((SubmitAddedTypoExceptions env w l).1 = true ↔
      ∃ id, (GetNetworkId env w).1 = some id ∧
        env.http (GetNetworkId env w).2.posts.length
            (ApiCall.typoExceptionsAdd id (GetNamesAsCommaSeparatedString l))
          ≠ HttpReply.invalid ∧
        env.http (GetNetworkId env w).2.posts.length
            (ApiCall.typoExceptionsAdd id (GetNamesAsCommaSeparatedString l))
          ≠ HttpReply.noData) ∧
    ((SubmitExpiredTypoExceptions env w l).1 = true ↔
      ∃ id, (GetNetworkId env w).1 = some id ∧
        env.http (GetNetworkId env w).2.posts.length
            (ApiCall.typoExceptionsRemove id (GetNamesAsCommaSeparatedString l))
          ≠ HttpReply.invalid ∧
        env.http (GetNetworkId env w).2.posts.length
            (ApiCall.typoExceptionsRemove id (GetNamesAsCommaSeparatedString l))
          ≠ HttpReply.noData) :=
  ⟨submitAdded_true_iff env w l hne, submitExpired_true_iff env w l hne⟩

/-- A witness of the amended C6: one name, a cached network id and a post that
fails in transport; the submission fails. -/
theorem submit_success_iff_transport_witness :
    ([{ s := "bar", t := 2000000 }] : List StringTimeNode) ≠ [] ∧
    (SubmitAddedTypoExceptions envOffline worldEmpty [{ s := "bar", t := 2000000 }]).1
      = false ∧
    ¬ ∃ id, (GetNetworkId envOffline worldEmpty).1 = some id ∧
        envOffline.http (GetNetworkId envOffline worldEmpty).2.posts.length
            (ApiCall.typoExceptionsAdd id
              (GetNamesAsCommaSeparatedString [{ s := "bar", t := 2000000 }]))
          ≠ HttpReply.invalid ∧
        envOffline.http (GetNetworkId envOffline worldEmpty).2.posts.length
            (ApiCall.typoExceptionsAdd id
              (GetNamesAsCommaSeparatedString [{ s := "bar", t := 2000000 }]))
          ≠ HttpReply.noData :=
  ⟨by decide, by decide,
   fun h => absurd ((submit_success_iff_transport envOffline worldEmpty
      [{ s := "bar", t := 2000000 }] (by decide)).1.mpr h) (by decide)⟩

/-- C7: in a pass on a snapshot of at most 25 entries a failed submission has
no effect on `g_allTypoExceptions`. When the add-submission succeeds and the
remove-submission fails, the old list stays whole, expired entries included, as
the tail of the new list, under the copies of the added entries (which are the
added entries themselves when every clock reading of the pass is `now`). When
the remove-submission succeeds and the add-submission fails, no name of the
added list is in the new list, whose names are those of a sublist of the old
list, reversed; when every clock reading of the pass is `now`, the new list is
the old list without the entries with `now > t + 1209600`, reversed by the
rebuild, a zero timestamp read again from the clock. -/
theorem failure_isolation (env : Env) (w : World)
    (hlen : (SubmitTypoExceptionsThread env w).currentList.length ≤ 25) :
    ((SubmitTypoExceptionsThread env w).addedOk = some true →
      (SubmitTypoExceptionsThread env w).expiredOk = some false →
        w.g_allTypoExceptions <:+ (SubmitTypoExceptionsThread env w).world.g_allTypoExceptions ∧
        names (SubmitTypoExceptionsThread env w).world.g_allTypoExceptions =
          (names (SubmitTypoExceptionsThread env w).added).reverse
            ++ names w.g_allTypoExceptions ∧
        ∀ now, (∀ n, w.ticks ≤ n → env.clock n = now) →
          (SubmitTypoExceptionsThread env w).world.g_allTypoExceptions =
            (SubmitTypoExceptionsThread env w).added.reverse ++ w.g_allTypoExceptions) ∧
    ((SubmitTypoExceptionsThread env w).expiredOk = some true →
      (SubmitTypoExceptionsThread env w).addedOk = some false →
        (∀ a ∈ (SubmitTypoExceptionsThread env w).added,
          a.s ∉ names (SubmitTypoExceptionsThread env w).world.g_allTypoExceptions) ∧
        (∃ l, l.Sublist w.g_allTypoExceptions ∧
          names (SubmitTypoExceptionsThread env w).world.g_allTypoExceptions
            = (names l).reverse) ∧
        ∀ now, (∀ n, w.ticks ≤ n → env.clock n = now) →
          (SubmitTypoExceptionsThread env w).world.g_allTypoExceptions =
            ((w.g_allTypoExceptions.filter (fun e => !decide (now > e.t + 1209600))).map
              (copyAt now)).reverse) := by
  rw [pass_currentList] at hlen
  rw [pass_uncapped env w hlen]
  simp only [Option.some.injEq]
  constructor
  · intro ha he
    have hreb : (passRebuilt env w).1 = (passMerged env w).1 := by
      unfold passRebuilt; rw [he]; rfl
    refine ⟨?_, ?_, ?_⟩
    · rw [hreb]; exact passMerged_suffix env w
    · rw [hreb, passMerged_names, ha]; rfl
    · intro now hc
      rw [hreb, passMerged_const env w now hc, ha]; rfl
  · intro he ha
    have hmer : (passMerged env w).1 = w.g_allTypoExceptions := by
      unfold passMerged; rw [ha]; rfl
    obtain ⟨l, hl, hn⟩ := passRebuilt_sublist env w he
    rw [hmer] at hl
    refine ⟨?_, ⟨l, hl, hn⟩, ?_⟩
    · intro a haa hmem
      rw [hn, List.mem_reverse] at hmem
      exact passAdded_not_in_list env w a haa ((hl.map _).subset hmem)
    · intro now hc
      rw [passRebuilt_const env w now hc, he, hmer]; rfl

/-- A witness of C7. With `foo` expired and `bar` new: when only the remove
request fails the list becomes `bar`, `foo`; when only the add request fails it
becomes empty. -/
theorem failure_isolation_witness :
    ((SubmitTypoExceptionsThread envRemoveFails worldOldFoo).currentList.length ≤ 25 ∧
      (SubmitTypoExceptionsThread envRemoveFails worldOldFoo).addedOk = some true ∧
      (SubmitTypoExceptionsThread envRemoveFails worldOldFoo).expiredOk = some false ∧
      (SubmitTypoExceptionsThread envRemoveFails worldOldFoo).expired =
        [{ s := "foo", t := 700000 }] ∧
      (SubmitTypoExceptionsThread envRemoveFails worldOldFoo).world.g_allTypoExceptions =
        [{ s := "bar", t := 2000000 }, { s := "foo", t := 700000 }]) ∧
    ((SubmitTypoExceptionsThread envAddFails worldOldFoo).currentList.length ≤ 25 ∧
      (SubmitTypoExceptionsThread envAddFails worldOldFoo).expiredOk = some true ∧
      (SubmitTypoExceptionsThread envAddFails worldOldFoo).addedOk = some false ∧
      (SubmitTypoExceptionsThread envAddFails worldOldFoo).added =
        [{ s := "bar", t := 2000000 }] ∧
      (SubmitTypoExceptionsThread envAddFails worldOldFoo).world.g_allTypoExceptions = []) :=
  ⟨⟨by decide, by decide, by decide, by decide,
    (((failure_isolation envRemoveFails worldOldFoo (by decide)).1 (by decide)
      (by decide)).2.2 2000000 (fun _ _ => rfl)).trans (by decide)⟩,
   ⟨by decide, by decide, by decide, by decide,
    (((failure_isolation envAddFails worldOldFoo (by decide)).2 (by decide)
      (by decide)).2.2 2000000 (fun _ _ => rfl)).trans (by decide)⟩⟩

/-- C8: on an empty list `SubmitAddedTypoExceptions` and
`SubmitExpiredTypoExceptions` return failure and leave the world as it is, the
log of posts and the cached network id included; so in a pass with an empty
added list the merge does not run (`addedOk` is not true), and in a pass with an
empty expired list the rebuild does not run (`expiredOk` is not true and the old
list stays in place as the tail of the new one). -/
theorem empty_list_guard (env : Env) (w : World) :
    SubmitAddedTypoExceptions env w [] = (false, w) ∧
    SubmitExpiredTypoExceptions env w [] = (false, w) ∧
    ((SubmitTypoExceptionsThread env w).added = [] →
      (SubmitTypoExceptionsThread env w).addedOk ≠ some true) ∧
    ((SubmitTypoExceptionsThread env w).expired = [] →
      (SubmitTypoExceptionsThread env w).expiredOk ≠ some true ∧
      w.g_allTypoExceptions <:+
        (SubmitTypoExceptionsThread env w).world.g_allTypoExceptions) := by
  refine ⟨rfl, rfl, ?_, ?_⟩
  · by_cases hcap : 25 < (passSnapshot env w).1.length
    · rw [pass_capped env w hcap]
      intro _ h
      exact Option.noConfusion h
    · rw [pass_uncapped env w (not_lt.mp hcap)]
      simp only [Option.some.injEq, ne_eq]
      intro h
      unfold passAdd
      rw [h, submitAdded_nil]
      exact Bool.noConfusion
  · by_cases hcap : 25 < (passSnapshot env w).1.length
    · rw [pass_capped env w hcap]
      intro _
      exact ⟨fun h => Option.noConfusion h, List.suffix_refl _⟩
    · rw [pass_uncapped env w (not_lt.mp hcap)]
      simp only [Option.some.injEq, ne_eq]
      intro h
      have hr : (passRemove env w).1 = false := by
        unfold passRemove
        rw [h, submitExpired_nil]
      refine ⟨by rw [hr]; exact Bool.noConfusion, ?_⟩
      unfold passRebuilt
      rw [hr]
      exact passMerged_suffix env w

/-- A witness of C8: the snapshot `foo`, `bar` against the list `foo` has an empty
expired list; the pass posts the network-id request and the add request only. -/
theorem empty_list_guard_witness :
    (SubmitTypoExceptionsThread envFooBar worldFoo).expired = [] ∧
    (SubmitTypoExceptionsThread envFooBar worldFoo).expiredOk ≠ some true ∧
    worldFoo.g_allTypoExceptions <:+
      (SubmitTypoExceptionsThread envFooBar worldFoo).world.g_allTypoExceptions ∧
    (SubmitTypoExceptionsThread envFooBar worldFoo).world.posts =
      [ApiCall.networkGet, ApiCall.typoExceptionsAdd "n1" "bar"] :=
  ⟨by decide,
   ((empty_list_guard envFooBar worldFoo).2.2.2 (by decide)).1,
   ((empty_list_guard envFooBar worldFoo).2.2.2 (by decide)).2,
   by decide⟩

/-- C9 fails as stated: the list holds `foo`, first seen more than 14 days ago,
and the snapshot is `foo`, `bar`. Both submissions of the first pass succeed, the
rebuild drops `foo`, and the second pass on the same snapshot adds `foo`. -/
theorem second_pass_adds_expired_name :
    (SubmitTypoExceptionsThread envFooBar worldOldFoo).currentList.length ≤ 25 ∧
    (SubmitTypoExceptionsThread envFooBar worldOldFoo).expiredOk = some true ∧
    (SubmitTypoExceptionsThread envFooBar worldOldFoo).addedOk = some true ∧
    (SubmitTypoExceptionsThread envFooBar worldOldFoo).world.g_allTypoExceptions =
      [{ s := "bar", t := 2000000 }] ∧
    names (SubmitTypoExceptionsThread envFooBar
        (SubmitTypoExceptionsThread envFooBar worldOldFoo).world).currentList =
      names (SubmitTypoExceptionsThread envFooBar worldOldFoo).currentList ∧
    (SubmitTypoExceptionsThread envFooBar
        (SubmitTypoExceptionsThread envFooBar worldOldFoo).world).added =
      [{ s := "foo", t := 2000000 }] := by
  decide

/-- C9, amended: on a snapshot of at most 25 names, with every clock reading
equal to `now`, when the add-submission of the first pass succeeds (or its added
list is empty) and no name of the snapshot equals, ignoring case, the name of an
entry of its expired list, the added list of a second pass on the same snapshot
source, run from the world the first pass left, is empty. -/
theorem second_pass_adds_nothing (env : Env) (w : World) (now : time_t)
    (hlen : (SubmitTypoExceptionsThread env w).currentList.length ≤ 25)
    (hc : ∀ n, w.ticks ≤ n → env.clock n = now)
    (hadd : (SubmitTypoExceptionsThread env w).addedOk = some true ∨
      (SubmitTypoExceptionsThread env w).added = [])
    (hkeep : ∀ c ∈ (SubmitTypoExceptionsThread env w).currentList,
      ∀ e ∈ (SubmitTypoExceptionsThread env w).expired, strieq e.s c.s = false) :
    (SubmitTypoExceptionsThread env (SubmitTypoExceptionsThread env w).world).added = [] := by
  rw [pass_currentList] at hlen
  rw [pass_uncapped env w hlen] at hadd hkeep ⊢
  simp only [Option.some.injEq] at hadd hkeep ⊢
  have hex := passRebuilt_keeps_snapshot env w now hc hadd hkeep
  generalize hW : ({ (passAdd env w).2 with
      g_allTypoExceptions := (passRebuilt env w).1,
      g_allTypoExceptionsCount := ((passRebuilt env w).1.length : Int),
      g_inTypoExceptionThread := false,
      ticks := (passRebuilt env w).2 } : World) = W
  have hWl : W.g_allTypoExceptions = (passRebuilt env w).1 := by rw [← hW]
  have hlen2 : (passSnapshot env W).1.length ≤ 25 := by
    rw [passSnapshot_length env W w]; exact hlen
  rw [pass_uncapped env W hlen2]
  show (passAdded env W).1 = []
  unfold passAdded
  rw [hWl]
  apply getAdded_nil_of_exists
  intro c hc2
  have hn : c.s ∈ names (passSnapshot env w).1 := by
    rw [← passSnapshot_names env W w]
    exact List.mem_map_of_mem _ hc2
  obtain ⟨c1, hc1, hs⟩ := List.mem_map.mp hn
  have h1 := hex c1 hc1
  rw [hs] at h1
  exact h1

/-- A witness of the amended C9: the list `foo` (not expired) and the snapshot
`foo`, `bar`; the first pass adds `bar` and a second pass adds nothing. -/
theorem second_pass_adds_nothing_witness :
    (SubmitTypoExceptionsThread envFooBar worldFoo).currentList.length ≤ 25 ∧
    (SubmitTypoExceptionsThread envFooBar worldFoo).addedOk = some true ∧
    (SubmitTypoExceptionsThread envFooBar worldFoo).added = [{ s := "bar", t := 2000000 }] ∧
    (SubmitTypoExceptionsThread envFooBar
      (SubmitTypoExceptionsThread envFooBar worldFoo).world).added = [] :=
  ⟨by decide, by decide, by decide,
   second_pass_adds_nothing envFooBar worldFoo 2000000 (by decide) (fun _ _ => rfl)
     (Or.inl (by decide)) (by decide)⟩

/-- C10 fails as stated in its second half: after a capped pass has left the
count 26 beside an empty list, a pass on a snapshot of two names in which the
network id cannot be resolved leaves the list unchanged and sets the count to 0,
the length of the list. -/
theorem count_updated_when_resolution_fails :
    (SubmitTypoExceptionsThread envMany worldStart).world.g_allTypoExceptionsCount = 26 ∧
    (SubmitTypoExceptionsThread envMany worldStart).world.g_pref_network_id = none ∧
    (GetNetworkId envOffline (SubmitTypoExceptionsThread envMany worldStart).world).1 = none ∧
    (SubmitTypoExceptionsThread envOffline
      (SubmitTypoExceptionsThread envMany worldStart).world).currentList.length = 2 ∧
    (SubmitTypoExceptionsThread envOffline
      (SubmitTypoExceptionsThread envMany worldStart).world).world.g_allTypoExceptions =
        (SubmitTypoExceptionsThread envMany worldStart).world.g_allTypoExceptions ∧
    (SubmitTypoExceptionsThread envOffline
      (SubmitTypoExceptionsThread envMany worldStart).world).world.g_allTypoExceptionsCount
        = 0 := by
  decide

/-- C10, amended: in a pass on a snapshot of at most 25 entries with no cached
network id and every resolution request failing (in transport, in parsing, by a
non-success status or by a missing id), both submissions fail,
`g_allTypoExceptions` is unchanged, the network id stays uncached, and
`g_allTypoExceptionsCount` is set to the length of `g_allTypoExceptions`. -/
theorem resolution_failure_effect (env : Env) (w : World)
    (hlen : (SubmitTypoExceptionsThread env w).currentList.length ≤ 25)
    (hid : w.g_pref_network_id = none)
    (hfail : ∀ n doc, env.http n ApiCall.networkGet = HttpReply.json doc →
      doc.statusSuccess = false ∨ doc.networkId = none) :
    (SubmitTypoExceptionsThread env w).expiredOk = some false ∧
    (SubmitTypoExceptionsThread env w).addedOk = some false ∧
    (SubmitTypoExceptionsThread env w).world.g_allTypoExceptions = w.g_allTypoExceptions ∧
    (SubmitTypoExceptionsThread env w).world.g_pref_network_id = none ∧
    (SubmitTypoExceptionsThread env w).world.g_allTypoExceptionsCount =
      (w.g_allTypoExceptions.length : Int) := by
  rw [pass_currentList] at hlen
  rw [pass_uncapped env w hlen]
  have hr := submitExpired_fails env
    { w with g_inTypoExceptionThread := true, ticks := (passExpired env w).2 }
    (passExpired env w).1 hid hfail
  have hr1 : (passRemove env w).1 = false := hr.1
  have ha := submitAdded_fails env (passRemove env w).2 (passAdded env w).1 hr.2 hfail
  have ha1 : (passAdd env w).1 = false := ha.1
  have ha2 : (passAdd env w).2.g_pref_network_id = none := ha.2
  have hreb : (passRebuilt env w).1 = w.g_allTypoExceptions := by
    unfold passRebuilt passMerged
    rw [hr1, ha1]
    rfl
  simp only [hr1, ha1, hreb, ha2, and_self]

/-- A witness of the amended C10: the list `foo`, the snapshot `foo`, `bar`, no
cached network id and no transport. -/
theorem resolution_failure_effect_witness :
    (SubmitTypoExceptionsThread envOffline worldFoo).currentList.length ≤ 25 ∧
    worldFoo.g_pref_network_id = none ∧
    (SubmitTypoExceptionsThread envOffline worldFoo).added = [{ s := "bar", t := 2000000 }] ∧
    (SubmitTypoExceptionsThread envOffline worldFoo).world.g_allTypoExceptions =
      [{ s := "foo", t := 1500000 }] ∧
    (SubmitTypoExceptionsThread envOffline worldFoo).world.g_allTypoExceptionsCount = 1 :=
  ⟨by decide, rfl, by decide,
   (resolution_failure_effect envOffline worldFoo (by decide) rfl
     (fun _ _ h => HttpReply.noConfusion h)).2.2.1,
   (resolution_failure_effect envOffline worldFoo (by decide) rfl
     (fun _ _ h => HttpReply.noConfusion h)).2.2.2.2⟩

/-- C11: after every pass on a snapshot of at most 25 entries, whatever the two
submissions returned, `TypoExceptionsCount()` is the number of entries of
`g_allTypoExceptions`. -/
theorem count_is_list_length (env : Env) (w : World)
    (hlen : (SubmitTypoExceptionsThread env w).currentList.length ≤ 25) :
    TypoExceptionsCount (SubmitTypoExceptionsThread env w).world =
      ((SubmitTypoExceptionsThread env w).world.g_allTypoExceptions.length : Int) := by
  rw [pass_currentList] at hlen
  rw [pass_uncapped env w hlen]
  rfl

/-- A witness of C11: after a capped pass has left the count 26, a pass on two
names with no transport leaves an empty list and the count 0. -/
theorem count_is_list_length_witness :
    (SubmitTypoExceptionsThread envOffline
      (SubmitTypoExceptionsThread envMany worldStart).world).currentList.length ≤ 25 ∧
    TypoExceptionsCount (SubmitTypoExceptionsThread envMany worldStart).world = 26 ∧
    (SubmitTypoExceptionsThread envOffline
      (SubmitTypoExceptionsThread envMany worldStart).world).world.g_allTypoExceptions = [] ∧
    TypoExceptionsCount (SubmitTypoExceptionsThread envOffline
      (SubmitTypoExceptionsThread envMany worldStart).world).world = 0 :=
  ⟨by decide, by decide, by decide,
   (count_is_list_length envOffline (SubmitTypoExceptionsThread envMany worldStart).world
     (by decide)).trans (by decide)⟩

/-- C13: when `g_inTypoExceptionThread` is set, `SubmitTypoExceptionsAsync`
creates no thread and leaves the world, so the list, the count, the cached
network id and the flag, as it was; as an event it leaves the system as it was. -/
theorem async_is_noop_in_progress (env : Env) (w : World)
    (h : w.g_inTypoExceptionThread = true) :
    SubmitTypoExceptionsAsync env w = (false, w) ∧
    ∀ created running : Nat,
      step env { world := w, created := created, running := running } Event.trigger =
        { world := w, created := created, running := running } := by
  have h1 : SubmitTypoExceptionsAsync env w = (false, w) := by
    unfold SubmitTypoExceptionsAsync
    rw [h]
    split <;> rfl
  refine ⟨h1, ?_⟩
  intro created running
  simp only [step, h1, Bool.false_eq_true, if_false]

/-- A witness of C13: a trigger while a pass on `foo`, `bar` is running. -/
theorem async_is_noop_in_progress_witness :
    (run envFooBar { world := worldFoo, created := 0, running := 0 }
      [Event.trigger, Event.start]).world.g_inTypoExceptionThread = true ∧
    run envFooBar { world := worldFoo, created := 0, running := 0 }
        [Event.trigger, Event.start, Event.trigger] =
      run envFooBar { world := worldFoo, created := 0, running := 0 }
        [Event.trigger, Event.start] :=
  ⟨by decide,
   (async_is_noop_in_progress envFooBar
      { worldFoo with g_inTypoExceptionThread := true } rfl).2 0 1⟩

/-- C16: `StringTimeNodeListGetAdded` does not compare the snapshot with itself:
the added list has as many entries as `current` has entries whose name is absent
(ignoring case) from `all`, and a name absent from `all` occurs in the added list
as often as it occurs in `current`. -/
theorem getAdded_keeps_duplicates (clock : Nat → time_t) (k : Nat)
    (all current : List StringTimeNode) :
    (StringTimeNodeListGetAdded clock k all current).1.length =
      (current.filter (fun e => !StringTimeNodeExists all e.s)).length ∧
    ∀ name, (∀ e ∈ all, strieq e.s name = false) →
      (names (StringTimeNodeListGetAdded clock k all current).1).count name =
        (names current).count name := by
  refine ⟨getAdded_length clock k all current, ?_⟩
  intro name habs
  unfold StringTimeNodeListGetAdded
  rw [getAddedLoop_names]
  simp only [names, List.map_nil, List.append_nil, List.count_reverse]
  exact count_names_filter all name ((exists_false_iff all name).mpr habs) current

/-- A witness of C16: `bar` twice in the snapshot and absent from the list is
twice in the added list. -/
theorem getAdded_keeps_duplicates_witness :
    (∀ e ∈ ([{ s := "foo", t := 5 }] : List StringTimeNode), strieq e.s "bar" = false) ∧
    (names (StringTimeNodeListGetAdded (fun _ => 9) 0 [{ s := "foo", t := 5 }]
      [{ s := "bar", t := 7 }, { s := "foo", t := 7 }, { s := "bar", t := 8 }]).1).count "bar"
        = 2 :=
  ⟨by decide,
   ((getAdded_keeps_duplicates (fun _ => 9) 0 [{ s := "foo", t := 5 }]
      [{ s := "bar", t := 7 }, { s := "foo", t := 7 }, { s := "bar", t := 8 }]).2 "bar"
      (by decide)).trans (by decide)⟩

/-- C19: the added list of a pass, the only list the pass hands to
`SubmitAddedTypoExceptions`, has at most 25 entries, whatever the persisted
state and the snapshot. -/
theorem added_at_most_cap (env : Env) (w : World) :
    ((SubmitTypoExceptionsThread env w).added.length : Int) ≤ MAX_TYPO_EXCEPTIONS := by
  unfold MAX_TYPO_EXCEPTIONS
  by_cases hcap : 25 < (passSnapshot env w).1.length
  · rw [pass_capped env w hcap]
    simp
  · rw [pass_uncapped env w (not_lt.mp hcap)]
    have h := le_trans (passAdded_length_le env w) (not_lt.mp hcap)
    exact_mod_cast h

/-- C20: no name of `StringTimeNodeListGetAdded(all, current)` equals, ignoring
case, a name of `StringTimeNodeListGetExpired(all)`, whatever the clock reads;
so the added and the expired list of one pass name no common candidate. -/
theorem added_and_expired_disjoint (clock : Nat → time_t) (k1 k2 : Nat)
    (all current : List StringTimeNode) (env : Env) (w : World) :
    (∀ a ∈ (StringTimeNodeListGetAdded clock k1 all current).1,
      ∀ e ∈ (StringTimeNodeListGetExpired clock k2 all).1, strieq a.s e.s = false) ∧
    (∀ a ∈ (SubmitTypoExceptionsThread env w).added,
      ∀ e ∈ (SubmitTypoExceptionsThread env w).expired, strieq a.s e.s = false) := by
  refine ⟨getAdded_getExpired_disjoint clock k1 k2 all current, ?_⟩
  by_cases hcap : 25 < (passSnapshot env w).1.length
  · rw [pass_capped env w hcap]
    intro a ha
    exact absurd ha (List.not_mem_nil a)
  · rw [pass_uncapped env w (not_lt.mp hcap)]
    exact getAdded_getExpired_disjoint _ _ _ _ _

/-- C15: `GetNetworkId` with a cached network id returns it and leaves the world
as it is (no post, the cache unchanged); with no cached id and a resolution that
yields nothing it returns nothing and the cache stays empty; with no cached id
and a resolution that yields an id it hands that id to `SetPrefVal` and returns
the cache, which then holds that id. A cached id is still the cached id after a
pass. -/
theorem networkId_cache (env : Env) (w : World) :
    (∀ id, w.g_pref_network_id = some id → GetNetworkId env w = (some id, w)) ∧
    (w.g_pref_network_id = none → (GetNetworkIdApi env w).1 = none →
      (GetNetworkId env w).1 = none ∧ (GetNetworkId env w).2.g_pref_network_id = none) ∧
    (∀ id, w.g_pref_network_id = none → (GetNetworkIdApi env w).1 = some id →
      (GetNetworkId env w).2 = SetPrefVal (GetNetworkIdApi env w).2 id ∧
      (GetNetworkId env w).1 = (GetNetworkId env w).2.g_pref_network_id ∧
      (GetNetworkId env w).1 = some id ∧
      (GetNetworkId env w).2.g_pref_network_id = some id) ∧
    (∀ id, w.g_pref_network_id = some id →
      (SubmitTypoExceptionsThread env w).world.g_pref_network_id = some id) := by
  refine ⟨getNetworkId_cached env w, ?_, ?_, pass_keeps_id env w⟩
  · intro hid hapi
    unfold GetNetworkId
    rw [hid]
    simp only [hapi]
    rw [getNetworkIdApi_world]
    exact ⟨trivial, hid⟩
  · intro id hid hapi
    unfold GetNetworkId
    rw [hid]
    simp only [hapi, SetPrefVal]
    exact ⟨trivial, trivial, trivial, trivial⟩

/-- A witness of C15: a cached id is returned with no post; with no cached id, a
failing transport leaves the cache empty and a successful resolution fills it. -/
theorem networkId_cache_witness :
    (worldEmpty.g_pref_network_id = some "n1" ∧
      GetNetworkId envOffline worldEmpty = (some "n1", worldEmpty)) ∧
    (worldStart.g_pref_network_id = none ∧
      (GetNetworkIdApi envOffline worldStart).1 = none ∧
      (GetNetworkId envOffline worldStart).1 = none ∧
      (GetNetworkId envOffline worldStart).2.g_pref_network_id = none) ∧
    (worldStart.g_pref_network_id = none ∧
      (GetNetworkIdApi envFooBar worldStart).1 = some "n1" ∧
      (GetNetworkId envFooBar worldStart).1 = some "n1" ∧
      (GetNetworkId envFooBar worldStart).2.g_pref_network_id = some "n1") ∧
    (SubmitTypoExceptionsThread envFooBar worldEmpty).world.g_pref_network_id = some "n1" :=
  ⟨⟨rfl, (networkId_cache envOffline worldEmpty).1 "n1" rfl⟩,
   ⟨rfl, by decide,
    ((networkId_cache envOffline worldStart).2.1 rfl (by decide)).1,
    ((networkId_cache envOffline worldStart).2.1 rfl (by decide)).2⟩,
   ⟨rfl, by decide,
    ((networkId_cache envFooBar worldStart).2.2.1 "n1" rfl (by decide)).2.2.1,
    ((networkId_cache envFooBar worldStart).2.2.1 "n1" rfl (by decide)).2.2.2⟩,
   (networkId_cache envFooBar worldEmpty).2.2.2 "n1" rfl⟩

/-- C18: `GetNamesAsCommaSeparatedString` returns the names in list order joined
by one comma between neighbours: the name itself for a list of one entry; when
no name contains a comma the result has one comma less than there are names;
when moreover no name is empty it neither begins nor ends with a comma. -/
theorem names_comma_separated (head : List StringTimeNode) :
    GetNamesAsCommaSeparatedString head = String.intercalate "," (names head) ∧
    (∀ e : StringTimeNode, GetNamesAsCommaSeparatedString [e] = e.s) ∧
    ((∀ e ∈ head, ',' ∉ e.s.data) →
      (GetNamesAsCommaSeparatedString head).data.count ',' = head.length - 1) ∧
    ((∀ e ∈ head, ',' ∉ e.s.data) → (∀ e ∈ head, e.s.data ≠ []) →
      (GetNamesAsCommaSeparatedString head).data.head? ≠ some ',' ∧
      (GetNamesAsCommaSeparatedString head).data.getLast? ≠ some ',') := by
  refine ⟨?_, ?_, ?_, ?_⟩
  · unfold GetNamesAsCommaSeparatedString
    cases head with
    | nil => rfl
    | cons c rest =>
      rw [namesLoop_eq_go]
      simp [names, String.intercalate]
  · intro e
    simp [GetNamesAsCommaSeparatedString, GetNamesAsCommaSeparatedStringLoop]
  · intro h
    unfold GetNamesAsCommaSeparatedString
    rw [namesLoop_count head "" h]
    simp
  · intro h hne
    unfold GetNamesAsCommaSeparatedString
    cases head with
    | nil => simp [GetNamesAsCommaSeparatedStringLoop]
    | cons c rest =>
      constructor
      · unfold GetNamesAsCommaSeparatedStringLoop
        have hc := h c (List.mem_cons_self _ _)
        have hcn := hne c (List.mem_cons_self _ _)
        obtain ⟨x, hx⟩ := namesLoop_prefix rest
          (if rest.isEmpty then "" ++ c.s else ("" ++ c.s) ++ ",")
        rw [hx]
        cases hd : c.s.data with
        | nil => exact absurd hd hcn
        | cons a as =>
          have ha : a ≠ ',' := by
            intro h2; apply hc; rw [hd, h2]; exact List.mem_cons_self _ _
          split <;> simp [hd, ha]
      · cases hl : (c :: rest).getLast? with
        | none => simp at hl
        | some e =>
          have he : e ∈ c :: rest := List.mem_of_getLast?_eq_some hl
          obtain ⟨x, hx⟩ := namesLoop_suffix (c :: rest) "" e hl
          rw [hx]
          have hen := hne e he
          have hec := h e he
          rw [List.getLast?_append_of_ne_nil _ hen]
          intro h2
          exact hec (List.mem_of_getLast?_eq_some h2)

/-- A witness of C18: three names give two commas, none at either end. -/
theorem names_comma_separated_witness :
    (∀ e ∈ ([{ s := "foo", t := 1 }, { s := "bar", t := 2 }, { s := "baz", t := 3 }]
      : List StringTimeNode), ',' ∉ e.s.data) ∧
    GetNamesAsCommaSeparatedString
      [{ s := "foo", t := 1 }, { s := "bar", t := 2 }, { s := "baz", t := 3 }]
        = "foo,bar,baz" ∧
    (GetNamesAsCommaSeparatedString
      [{ s := "foo", t := 1 }, { s := "bar", t := 2 }, { s := "baz", t := 3 }]).data.count ','
        = 2 :=
  ⟨by decide, by decide,
   (names_comma_separated
      [{ s := "foo", t := 1 }, { s := "bar", t := 2 }, { s := "baz", t := 3 }]).2.2.1
      (by decide)⟩

/-- C17: when the clock reads `now` during the rebuild,
`StringTimeNodeListRemoveExpired` replaces the list by the copies of exactly its
entries with `now <= t + 1209600`, in reverse order: the names of the new list
are the names of those entries, each as often as before, and no entry of the new
list, and no entry of the old list with `now > t + 1209600`, is older than 14
days. The readings that count are those of the rebuild: in a pass whose
remove-submission succeeds and whose add-submission fails, if the clock reads
`late` from the end of the computation of the expired list on, the new list
holds the entries with `late <= t + 1209600`, whatever the expired list was. -/
theorem rebuild_by_current_predicate (clock : Nat → time_t) (k : Nat) (now : time_t)
    (head : List StringTimeNode) (env : Env) (w : World) (late : time_t) :
    ((∀ n, k ≤ n → clock n = now) →
      (StringTimeNodeListRemoveExpired clock k head).1 =
        ((head.filter (fun e => decide (now ≤ e.t + 1209600))).map (copyAt now)).reverse ∧
      names (StringTimeNodeListRemoveExpired clock k head).1 =
        (names (head.filter (fun e => decide (now ≤ e.t + 1209600)))).reverse ∧
      (∀ name, (names (StringTimeNodeListRemoveExpired clock k head).1).count name =
        (names (head.filter (fun e => decide (now ≤ e.t + 1209600)))).count name) ∧
      (∀ x ∈ (StringTimeNodeListRemoveExpired clock k head).1, ¬ now > x.t + 1209600) ∧
      (∀ e ∈ head, now > e.t + 1209600 →
        e ∉ (StringTimeNodeListRemoveExpired clock k head).1)) ∧
    ((SubmitTypoExceptionsThread env w).expiredOk = some true →
      (SubmitTypoExceptionsThread env w).addedOk = some false →
      (∀ n, (passExpired env w).2 ≤ n → env.clock n = late) →
        names (SubmitTypoExceptionsThread env w).world.g_allTypoExceptions =
          (names (w.g_allTypoExceptions.filter
            (fun e => decide (late ≤ e.t + 1209600)))).reverse) := by
  constructor
  · intro hc
    have h1 := removeExpired_const clock k now head hc
    have hx : ∀ x ∈ (StringTimeNodeListRemoveExpired clock k head).1,
        ¬ now > x.t + 1209600 := by
      intro x hx
      rw [h1] at hx
      simp only [List.mem_reverse, List.mem_map, List.mem_filter, decide_eq_true_eq] at hx
      obtain ⟨e, ⟨_, he⟩, rfl⟩ := hx
      exact copyAt_not_expired now e he
    refine ⟨h1, ?_, ?_, hx, ?_⟩
    · rw [h1]
      unfold names
      rw [List.map_reverse]
      exact congrArg List.reverse (names_map_copyAt now _)
    · intro name
      rw [h1]
      unfold names
      rw [List.map_reverse, List.count_reverse]
      exact congrArg (List.count name) (names_map_copyAt now _)
    · intro e _ hexp hmem
      exact hx e hmem hexp
  · intro he ha hc
    by_cases hcap : 25 < (passSnapshot env w).1.length
    · rw [pass_capped env w hcap] at he
      exact Option.noConfusion he
    · rw [pass_uncapped env w (not_lt.mp hcap)] at he ha ⊢
      simp only [Option.some.injEq] at he ha
      have hm : passMerged env w = (w.g_allTypoExceptions, (passExpired env w).2) := by
        unfold passMerged; rw [ha]; rfl
      have hr : (passRebuilt env w).1 =
          (StringTimeNodeListRemoveExpired env.clock (passExpired env w).2
            w.g_allTypoExceptions).1 := by
        unfold passRebuilt; rw [he, hm]; rfl
      show names (passRebuilt env w).1 = _
      rw [hr, removeExpired_const env.clock _ late _ hc]
      unfold names
      rw [List.map_reverse]
      exact congrArg List.reverse (names_map_copyAt late _)

/-- A witness of C17. At the clock reading 2000000 the rebuild of `old`, `mid`
keeps `mid`. In a pass where the clock reads 2000000 while the expired list is
computed and 2100000 from then on, the expired list is `old` alone and the
rebuild drops `old` and `mid`. -/
theorem rebuild_by_current_predicate_witness :
    (StringTimeNodeListRemoveExpired (fun _ => 2000000) 0
        [{ s := "old", t := 700000 }, { s := "mid", t := 800000 }]).1 =
      [{ s := "mid", t := 800000 }] ∧
    (SubmitTypoExceptionsThread envLate worldOldMid).expired =
      [{ s := "old", t := 700000 }] ∧
    (SubmitTypoExceptionsThread envLate worldOldMid).expiredOk = some true ∧
    (SubmitTypoExceptionsThread envLate worldOldMid).addedOk = some false ∧
    (passExpired envLate worldOldMid).2 = 2 ∧
    names (SubmitTypoExceptionsThread envLate worldOldMid).world.g_allTypoExceptions = [] :=
  ⟨((rebuild_by_current_predicate (fun _ => 2000000) 0 2000000
        [{ s := "old", t := 700000 }, { s := "mid", t := 800000 }]
        envLate worldOldMid 2100000).1 (fun _ _ => rfl)).1.trans (by decide),
   by decide, by decide, by decide, by decide,
   ((rebuild_by_current_predicate (fun _ => 2000000) 0 2000000
        [{ s := "old", t := 700000 }, { s := "mid", t := 800000 }]
        envLate worldOldMid 2100000).2 (by decide) (by decide)
        (fun n hn => by
          have h2 : (passExpired envLate worldOldMid).2 = 2 := by decide
          rw [h2] at hn
          show (if n < 2 then (2000000 : time_t) else 2100000) = 2100000
          rw [if_neg (not_lt.mpr hn)])).trans (by decide)⟩

/-- C12: an entry's timestamp is immutable once it is in the list. The list
starts empty and every stored timestamp is a reading of `time()`; with a clock
that never reads 0, no timestamp of `g_allTypoExceptions` is ever 0, after one
pass and after any number of passes from program start. On such a list, for
every pass, every entry of the new list whose name equals, ignoring case, the
name of an entry of the old list is an entry of the old list, name and timestamp,
whether or not the snapshot holds its name and whether or not the list is
rebuilt by `StringTimeNodeListRemoveExpired`; when the rebuild does not run the
old list stays in place as the tail of the new one. -/
theorem timestamps_immutable (env : Env) (w : World)
    (hclock : ∀ n, env.clock n ≠ 0)
    (h0 : ∀ e ∈ w.g_allTypoExceptions, e.t ≠ 0) :
    (∀ x ∈ (SubmitTypoExceptionsThread env w).world.g_allTypoExceptions,
      (∃ e ∈ w.g_allTypoExceptions, strieq e.s x.s = true) →
        x ∈ w.g_allTypoExceptions) ∧
    (∀ x ∈ (SubmitTypoExceptionsThread env w).world.g_allTypoExceptions,
      ∀ e ∈ w.g_allTypoExceptions, x.s = e.s →
        ∃ e2 ∈ w.g_allTypoExceptions, e2.s = e.s ∧ x.t = e2.t) ∧
    ((SubmitTypoExceptionsThread env w).expiredOk ≠ some true →
      w.g_allTypoExceptions <:+
        (SubmitTypoExceptionsThread env w).world.g_allTypoExceptions) ∧
    (∀ x ∈ (SubmitTypoExceptionsThread env w).world.g_allTypoExceptions, x.t ≠ 0) ∧
    (∀ envs : List Env, (∀ env2 ∈ envs, ∀ n, env2.clock n ≠ 0) →
      ∀ x ∈ (runPasses envs worldStart).g_allTypoExceptions, x.t ≠ 0) := by
  have hsame : ∀ x ∈ (SubmitTypoExceptionsThread env w).world.g_allTypoExceptions,
      (∃ e ∈ w.g_allTypoExceptions, strieq e.s x.s = true) →
        x ∈ w.g_allTypoExceptions := by
    intro x hx hold
    obtain ⟨e, he, hs, ht⟩ := pass_old_names_copy env w x hx hold
    have hxe : x = e := by
      cases x with
      | mk xs xt =>
        cases e with
        | mk es et =>
          simp only at hs
          have h2 := ht (h0 _ he)
          simp only at h2
          rw [hs, h2]
    rw [hxe]
    exact he
  refine ⟨hsame, ?_, ?_, pass_no_zero env w hclock h0, ?_⟩
  · intro x hx e he hs
    have hmem := hsame x hx ⟨e, he, by rw [hs]; exact strieq_refl _⟩
    exact ⟨x, hmem, hs, rfl⟩
  · intro hne
    by_cases hcap : 25 < (passSnapshot env w).1.length
    · rw [pass_capped env w hcap]
    · rw [pass_uncapped env w (not_lt.mp hcap)] at hne ⊢
      simp only [ne_eq, Option.some.injEq, Bool.not_eq_true] at hne
      show w.g_allTypoExceptions <:+ (passRebuilt env w).1
      unfold passRebuilt
      rw [hne]
      exact passMerged_suffix env w
  · intro envs hclocks
    exact runPasses_no_zero envs worldStart hclocks
      (fun e he => absurd he (List.not_mem_nil e))

/-- A witness of C12: the list `old`, `mid` and the snapshot `mid`; `old` is
expired, the list is rebuilt, and `mid`, found again, keeps its timestamp
800000. -/
theorem timestamps_immutable_witness :
    (∀ n, envMid.clock n ≠ 0) ∧
    (∀ e ∈ worldOldMid.g_allTypoExceptions, e.t ≠ 0) ∧
    names (SubmitTypoExceptionsThread envMid worldOldMid).currentList = ["mid"] ∧
    (SubmitTypoExceptionsThread envMid worldOldMid).expiredOk = some true ∧
    (SubmitTypoExceptionsThread envMid worldOldMid).world.g_allTypoExceptions =
      [{ s := "mid", t := 800000 }] ∧
    ({ s := "mid", t := 800000 } : StringTimeNode) ∈ worldOldMid.g_allTypoExceptions :=
  ⟨fun _ => (by decide : (2000000 : time_t) ≠ 0), by decide, by decide, by decide, by decide,
   (timestamps_immutable envMid worldOldMid
      (fun _ => (by decide : (2000000 : time_t) ≠ 0)) (by decide)).1
     { s := "mid", t := 800000 } (by decide) (by decide)⟩

/-- C14 fails as stated: `g_inTypoExceptionThread` is set by the first statement
of the pass, not by `SubmitTypoExceptionsAsync` before `CreateThread`. Two calls
of `SubmitTypoExceptionsAsync` before the first created thread begins create two
threads, and both passes are then running. -/
theorem two_passes_in_flight :
    inFlight systemStart = 0 ∧
    (run envFooBar systemStart [Event.trigger]).world.g_inTypoExceptionThread = false ∧
    (run envFooBar systemStart [Event.trigger, Event.trigger]).created = 2 ∧
    (run envFooBar systemStart
      [Event.trigger, Event.trigger, Event.start, Event.start]).running = 2 := by
  decide

/-- C14, amended: from a system with no pass in flight, in every sequence of
calls of `SubmitTypoExceptionsAsync`, starts and ends of passes in which no call
happens while a created thread has not begun, at most one pass is in flight at
any time. The flag is set when a pass begins and is cleared when it ends, also
on the path of the cap. -/
theorem one_pass_in_flight (env : Env) (sys : System) (evs : List Event)
    (h0 : inFlight sys = 0) (hp : PromptStart env sys evs) :
    inFlight (run env sys evs) ≤ 1 ∧
    (sys.created ≠ 0 → (step env sys Event.start).world.g_inTypoExceptionThread = true) ∧
    (∀ w, (SubmitTypoExceptionsThread env w).world.g_inTypoExceptionThread = false) := by
  refine ⟨?_, ?_, pass_flag_cleared env⟩
  · have h1 : inFlight sys ≤ 1 := by omega
    have h2 : sys.running = 1 → sys.world.g_inTypoExceptionThread = true := by
      intro h
      unfold inFlight at h0
      omega
    exact run_keeps_one env evs sys hp h1 h2
  · intro hc
    simp only [step, if_neg hc]

/-- A witness of the amended C14: a trigger, the start of its pass, a trigger
that is dropped, the end of the pass, and the same again. -/
theorem one_pass_in_flight_witness :
    inFlight systemStart = 0 ∧
    PromptStart envFooBar systemStart
      [Event.trigger, Event.start, Event.trigger, Event.finish,
       Event.trigger, Event.start, Event.finish] ∧
    inFlight (run envFooBar systemStart
      [Event.trigger, Event.start, Event.trigger]) = 1 ∧
    inFlight (run envFooBar systemStart
      [Event.trigger, Event.start, Event.trigger, Event.finish,
       Event.trigger, Event.start, Event.finish]) ≤ 1 :=
  ⟨by decide, by decide, by decide,
   (one_pass_in_flight envFooBar systemStart
      [Event.trigger, Event.start, Event.trigger, Event.finish,
       Event.trigger, Event.start, Event.finish] (by decide) (by decide)).1⟩

end TypoExceptions
